import Mathlib

/-!
Verification development for the Backend-MHD1 campaign-verification backend.

The definitions below are shallow embeddings of the JavaScript source:

* `hexHamming` and its helpers embed the perceptual-hash Hamming distance of
  `src/controllers/entryController.js` (lines 47-59).
* `verifiedFlask` embeds the rule evaluation of the Flask/OCR generation
  (`src/controllers/entryController.js`, lines 411-436), and `verifiedYT` the
  rule evaluation of the YouTube-API generation (`src/unnamed/part_005`,
  lines 318-323 and 658-665).
* The reply-search loop, the self-reply check and the per-submission reply
  fold embed `src/unnamed/part_005`, lines 522-627.
* The screenshot persistence/reuse guard embeds `src/unnamed/part_005`,
  lines 690-786, together with the unique indexes installed by
  `src/fix-indexes.js` (lines 198-212).
* The settlement debit embeds `deductEmployeeBalanceForTask` of
  `src/controllers/employeeController.js` (lines 276-390); Mongo transaction
  semantics (all-or-nothing, roll back on throw) are modelled explicitly.
* `setEntryStatus` embeds `src/unnamed/part_005` lines 985-1065 (identical in
  structure to `src/controllers/entryController.js` lines 635-706).
* The OCR reuse-of-files guard embeds `src/controllers/entryController.js`,
  lines 362-385.
* `preValidateScreenshot` embeds the pre-validate hook of
  `src/models/Screenshot.js` (lines 46-111).

JavaScript numbers are modelled as `Nat`/`Int` where the code only ever deals
with integral values, strings as Lean `String`, `null`/`undefined` as
`Option`, and thrown/duplicate-key errors as explicit result constructors.
-/

namespace MHD1

/-! ## Definitions -/

/-- JS regex class backslash-s (modelled by the Lean ASCII whitespace
set). -/
def isSpaceJS (c : Char) : Bool := c.isWhitespace

/-- JS String.prototype.trim, as an executable model: drop whitespace from
both ends of the character list. -/
def jsTrim (s : String) : String :=
  ⟨(((s.data.dropWhile isSpaceJS).reverse).dropWhile isSpaceJS).reverse⟩

/-! ### Perceptual hash layer: `hexHamming` (entryController.js 47-59) -/

/-- JS `const NIBBLE_POP = [0,1,1,2,1,2,2,3,1,2,2,3,2,3,3,4]` — popcount of each
nibble value 0..15. -/
def NIBBLE_POP : List Nat := [0, 1, 1, 2, 1, 2, 2, 3, 1, 2, 2, 3, 2, 3, 3, 4]

/-- A character accepted by `parseInt(c, 16)` as a hex digit. -/
def isHexDigitJS (c : Char) : Bool :=
  ('0' ≤ c ∧ c ≤ '9') ∨ ('a' ≤ c ∧ c ≤ 'f') ∨ ('A' ≤ c ∧ c ≤ 'F')

/-- JS `parseInt(c, 16)` on a single character; a non-hex character yields `NaN`,
which JavaScript bitwise operators coerce to `0`. -/
def hexDigitVal (c : Char) : Nat :=
  if '0' ≤ c ∧ c ≤ '9' then c.toNat - '0'.toNat
  else if 'a' ≤ c ∧ c ≤ 'f' then c.toNat - 'a'.toNat + 10
  else if 'A' ≤ c ∧ c ≤ 'F' then c.toNat - 'A'.toNat + 10
  else 0

/-- JS padStart with the zero character, on the character list of a string. -/
def padStartZeros (l : List Char) (len : Nat) : List Char :=
  List.replicate (len - l.length) '0' ++ l

/-- One loop iteration of `hexHamming`:
`NIBBLE_POP[(parseInt(a[i],16) ^ parseInt(b[i],16)) & 0xF]`. -/
def nibbleDist (c d : Char) : Nat :=
  NIBBLE_POP.getD ((hexDigitVal c ^^^ hexDigitVal d) &&& 15) 0

/-- JS `hexHamming(a, b)` (entryController.js 49-59): left-pad both strings with
zeros to the longer length, then sum the nibble-wise popcounts of the XOR. -/
def hexHamming (a b : String) : Nat :=
  let len := max a.data.length b.data.length
  (List.zipWith nibbleDist (padStartZeros a.data len) (padStartZeros b.data len)).sum

/-! ### Campaign rule evaluation -/

/-- JS check `typeof user_id` being string `&& user_id.trim().length > 0`
(entryController.js 429). `none` models `null`/non-string. -/
def hasHandle (user_id : Option String) : Bool :=
  match user_id with
  | some s => (jsTrim s).length > 0
  | none => false

/-- The verified flag of the Flask/OCR generation (entryController.js 429-436):
`verified = !!(hasHandle && meetsCounts && meetsLike)` where
`meetsCounts = comment.length >= min_comments && replies.length >= min_replies`
and `meetsLike = require_like ? !!liked : true`. -/
def verifiedFlask (user_id : Option String) (commentCount replyCount : Nat)
    (liked : Bool) (min_comments min_replies : Nat) (require_like : Bool) : Bool :=
  hasHandle user_id
    && (decide (commentCount ≥ min_comments) && decide (replyCount ≥ min_replies))
    && (if require_like then liked else true)

/-- The verified flag of the YouTube-API generation (part_005 661-665):
`verified = reasons.length === 0 && gotComments >= minComments &&
gotReplies >= minReplies && (!likeRequired || likedAssumed === true)` with
`likedAssumed = likeRequired ? true : false` (part_005 323). -/
def verifiedYT (reasons : List String) (gotComments gotReplies : Nat)
    (minComments minReplies : Nat) (likeRequired : Bool) : Bool :=
  let likedAssumed := if likeRequired then true else false
  reasons.isEmpty
    && decide (gotComments ≥ minComments)
    && decide (gotReplies ≥ minReplies)
    && (!likeRequired || likedAssumed)

/-! ### Entry approval / rejection: `setEntryStatus` (part_005 985-1065) -/

/-- The fields of an `Entry` document that `setEntryStatus` reads.
`status` is `none` for pending (`null` in Mongo), `some 0` for rejected and
`some 1` for approved.  An empty/absent `employeeId`/`worksUnder` (falsy in
JS) is modelled as `none`. -/
structure EntryDoc where
  entryId : String
  type : Nat
  status : Option Nat
  employeeId : Option String
  worksUnder : Option String
  amount : Option Int
  totalAmount : Option Int
deriving Repr, DecidableEq

/-- The HTTP-level outcomes of `setEntryStatus`. -/
inductive StatusResult where
  | validationError
  | alreadyResolved (status : Nat)
  | invalidDeduction
  | employeeNotFound
  | insufficientBalance
  | applied (status : Nat) (newBalance : Option Int)
deriving Repr, DecidableEq

/-- part_005 1005-1019: pick the deduction amount and the employee to debit.
`Number(entry.amount || 0)` / `Number(entry.totalAmount || 0)` is `getD 0`. -/
def deductionTarget (entry : EntryDoc) : Option (Int × String) :=
  if entry.type = 0 then
    match entry.employeeId with
    | some e => some (entry.amount.getD 0, e)
    | none => none
  else if entry.type = 1 then
    match entry.worksUnder with
    | some e => some (entry.totalAmount.getD 0, e)
    | none => none
  else none

/-- JS `setEntryStatus` (part_005 985-1065) as a transition on
(entry, employee-balance table): validate `approve ∈ {0,1}`; short-circuit
when the entry already has the requested status; on approval resolve the
deduction target, require the employee to exist with sufficient balance, and
decrement; finally `findOneAndUpdate({entryId, status: {$ne: newStatus}})`
sets the new status (it always matches here because the equal-status case
already returned). -/
def setEntryStatus (entry : EntryDoc) (employees : String → Option Int)
    (newStatus : Nat) : StatusResult × EntryDoc × (String → Option Int) :=
  if ¬ (newStatus = 0 ∨ newStatus = 1) then (.validationError, entry, employees)
  else if entry.status = some newStatus then
    (.alreadyResolved newStatus, entry, employees)
  else if newStatus = 1 then
    match deductionTarget entry with
    | none => (.invalidDeduction, entry, employees)
    | some (ded, empId) =>
      match employees empId with
      | none => (.employeeNotFound, entry, employees)
      | some bal =>
        if bal < ded then (.insufficientBalance, entry, employees)
        else
          let employees' := fun e => if e = empId then some (bal - ded) else employees e
          (.applied 1 (employees' empId), { entry with status := some 1 }, employees')
  else
    (.applied newStatus none, { entry with status := some newStatus }, employees)

/-! ### Settlement debit: `deductEmployeeBalanceForTask`
(employeeController.js 276-390, Payout model in models/Entry.js bundle 50-65) -/

/-- A `Payout` idempotency record, unique on (employeeId, userId, taskId). -/
structure Payout where
  employeeId : String
  userId : String
  taskId : String
  amount : Int
deriving Repr, DecidableEq

/-- The storage state the settlement touches: employee balances, payout
records and the balance-history ledger (employeeId, amount delta). -/
structure SettleState where
  employees : String → Option Int
  payouts : List Payout
  history : List (String × Int)

/-- JS `Payout.findOne({employeeId, userId, taskId})`. -/
def findPayout (ps : List Payout) (e u t : String) : Option Payout :=
  ps.find? (fun p => p.employeeId == e && p.userId == u && p.taskId == t)

/-- The HTTP-level outcomes of `deductEmployeeBalanceForTask`.  The
idempotency short-circuit responds with `amountDeducted: existing.amount`
(`some`); the duplicate-key race handler responds without it (`none`). -/
inductive DeductResult where
  | invalidAmount
  | alreadyPaid (amountDeducted : Option Int)
  | success (amountDeducted newBalance : Int)
  | employeeNotFound
  | insufficientFunds
deriving Repr, DecidableEq

/-- JS `deductEmployeeBalanceForTask` (employeeController.js 276-390).

`racePayouts` are payout records committed by concurrent requests after this
idempotency pre-check of this request read its snapshot; they are what makes the
`Payout.create` inside the transaction raise a duplicate-key error (code
11000).  `session.withTransaction` semantics: a throw inside the body rolls
back the balance decrement and the history insert, so the duplicate-key
branch returns the state unchanged except for the concurrently committed
payouts.  The conditional decrement is
`Employee.findOneAndUpdate({employeeId, balance: {$gte: amount}}, {$inc:
{balance: -amount}})`; a zero-row match is split by the follow-up
`Employee.exists` check into EMPLOYEE_NOT_FOUND and INSUFFICIENT_FUNDS. -/
def deductEmployeeBalanceForTask (st : SettleState) (racePayouts : List Payout)
    (employeeId userId taskId : String) (amountPerPerson : Int) :
    DeductResult × SettleState :=
  if amountPerPerson ≤ 0 then (.invalidAmount, st)
  else
    match findPayout st.payouts employeeId userId taskId with
    | some existing => (.alreadyPaid (some existing.amount), st)
    | none =>
      let payoutsSeen := st.payouts ++ racePayouts
      let stRace : SettleState := { st with payouts := payoutsSeen }
      match st.employees employeeId with
      | none => (.employeeNotFound, stRace)
      | some bal =>
        if bal < amountPerPerson then (.insufficientFunds, stRace)
        else if (findPayout payoutsSeen employeeId userId taskId).isSome then
          (.alreadyPaid none, stRace)
        else
          (.success amountPerPerson (bal - amountPerPerson),
            { employees := fun e =>
                if e = employeeId then some (bal - amountPerPerson) else st.employees e,
              history := (employeeId, -amountPerPerson) :: st.history,
              payouts := payoutsSeen ++ [⟨employeeId, userId, taskId, amountPerPerson⟩] })

/-! ### Screenshot store, reuse guard and upsert (part_005 690-786,
fix-indexes.js 198-212) -/

/-- JS `uniq` (part_005 55-67): trim every element, drop empties, keep the first
occurrence of each distinct trimmed string. -/
def uniqAux (seen : List String) : List String → List String
  | [] => []
  | x :: xs =>
    let t := jsTrim x
    if t = "" then uniqAux seen xs
    else if seen.contains t then uniqAux seen xs
    else t :: uniqAux (t :: seen) xs

/-- JS `uniq(arr)` (part_005 55-67). -/
def uniq (l : List String) : List String := uniqAux [] l

/-- The fields of a `Screenshot` document that the YouTube-API generation
reads and writes (part_005 721-752).  `actionCommentIds` models
`actions[].commentId` (comment ids followed by reply ids, as pushed), and
`analysisComments`/`analysisReplies` model `analysis.comments` /
`analysis.replies`. -/
structure ScreenshotDoc where
  screenshotId : String
  userId : String
  linkId : String
  verified : Bool
  videoId : String
  channelId : String
  commentIds : List String
  replyIds : List String
  actionCommentIds : List String
  analysisComments : List String
  analysisReplies : List String
deriving Repr, DecidableEq

/-- Mongo `{field: {$in: queryArr}}` on an array field: the arrays share an
element. -/
def listInter (fieldArr queryArr : List String) : Bool :=
  fieldArr.any (fun x => queryArr.contains x)

/-- The `$or` filter of the cross-user reuse pre-check (part_005 695-706):
same campaign, `verified: true`, `userId: {$ne: current}`, and any of the
five id-array conditions overlapping the submitted ids. -/
def reuseMatch (linkId userId : String)
    (usedCommentIds usedReplyIds allUsed : List String) (d : ScreenshotDoc) : Bool :=
  d.linkId == linkId && d.verified && !(d.userId == userId)
    && (listInter d.commentIds usedCommentIds
        || listInter d.replyIds usedReplyIds
        || listInter d.actionCommentIds allUsed
        || listInter d.analysisComments usedCommentIds
        || listInter d.analysisReplies usedReplyIds)

/-- JS `Screenshot.findOne({...})` for the reuse pre-check (part_005 695-706). -/
def reuseByOtherUser (store : List ScreenshotDoc) (linkId userId : String)
    (usedCommentIds usedReplyIds allUsed : List String) : Option ScreenshotDoc :=
  store.find? (reuseMatch linkId userId usedCommentIds usedReplyIds allUsed)

/-- Outcome of the screenshot upsert, including the duplicate-key (11000)
cases mapped by `keyPattern` (part_005 754-780). -/
inductive PersistOutcome where
  | created (doc : ScreenshotDoc)
  | updated (doc : ScreenshotDoc)
  | dupUserLink
  | dupCommentIndex
  | dupReplyIndex
deriving Repr, DecidableEq

/-- The unique indexes of fix-indexes.js 200-212 evaluated against the other
documents: unique (userId, linkId); unique multikey (linkId, commentIds) and
(linkId, replyIds), both restricted to `verified: true` documents (the
`$type: "array"` restriction always holds in this model).  Returns the
duplicate-key outcome the error handler would map the violation to. -/
def dupKeyFor (others : List ScreenshotDoc) (nd : ScreenshotDoc) : Option PersistOutcome :=
  if others.any (fun o => o.userId == nd.userId && o.linkId == nd.linkId) then
    some .dupUserLink
  else if nd.verified && others.any (fun o =>
      o.verified && o.linkId == nd.linkId && listInter o.commentIds nd.commentIds) then
    some .dupCommentIndex
  else if nd.verified && others.any (fun o =>
      o.verified && o.linkId == nd.linkId && listInter o.replyIds nd.replyIds) then
    some .dupReplyIndex
  else none

/-- The upsert of part_005 724-753: `Screenshot.findOne({userId, linkId})`,
update the found document in place (save re-validates against the unique
indexes) or create a new one with a fresh `screenshotId`. -/
def persistScreenshot (store : List ScreenshotDoc)
    (userId linkId videoId channelId freshId : String)
    (commentIds replyIds actionIds anaComments anaReplies : List String) :
    PersistOutcome × List ScreenshotDoc :=
  match store.find? (fun d => d.userId == userId && d.linkId == linkId) with
  | some old =>
    let nd : ScreenshotDoc :=
      { old with
        videoId := videoId
        channelId := channelId
        verified := true
        commentIds := commentIds
        replyIds := replyIds
        actionCommentIds := actionIds
        analysisComments := anaComments
        analysisReplies := anaReplies }
    let others := store.filter (fun o => !(o.screenshotId == old.screenshotId))
    match dupKeyFor others nd with
    | some dup => (dup, store)
    | none =>
      (.updated nd, store.map (fun o => if o.screenshotId == old.screenshotId then nd else o))
  | none =>
    let nd : ScreenshotDoc :=
      ⟨freshId, userId, linkId, true, videoId, channelId,
        commentIds, replyIds, actionIds, anaComments, anaReplies⟩
    match dupKeyFor store nd with
    | some dup => (dup, store)
    | none => (.created nd, store ++ [nd])

/-- The HTTP-level outcome of the persistence tail of `createUserEntry`. -/
inductive SubmitResult where
  | conflictOtherUser (byUserId screenshotId : String)
  | userAlreadyVerified
  | commentAlreadyUsed
  | replyAlreadyUsed
  | ok (doc : ScreenshotDoc)
deriving Repr, DecidableEq

/-- The persistence tail of the YouTube-API `createUserEntry`
(part_005 690-786), entered only for a verified analysis: build the used-id
arrays from the accepted actions, run the cross-user reuse pre-check, then
upsert the screenshot with the unique-index duplicate-key mapping.
`commentActionIds` / `replyActionIds` are the `commentId`s of the accepted
comment / reply actions in order. -/
def submitVerified (store : List ScreenshotDoc)
    (userId linkId videoId channelId freshId : String)
    (commentActionIds replyActionIds : List String) :
    SubmitResult × List ScreenshotDoc :=
  let usedCommentIds := commentActionIds
  let usedReplyIdsArr := replyActionIds
  let allUsed := uniq (usedCommentIds ++ usedReplyIdsArr)
  match reuseByOtherUser store linkId userId usedCommentIds usedReplyIdsArr allUsed with
  | some d => (.conflictOtherUser d.userId d.screenshotId, store)
  | none =>
    match persistScreenshot store userId linkId videoId channelId freshId
        (uniq commentActionIds) (uniq replyActionIds)
        (commentActionIds ++ replyActionIds) commentActionIds replyActionIds with
    | (.created nd, st) => (.ok nd, st)
    | (.updated nd, st) => (.ok nd, st)
    | (.dupUserLink, st) => (.userAlreadyVerified, st)
    | (.dupCommentIndex, st) => (.commentAlreadyUsed, st)
    | (.dupReplyIndex, st) => (.replyAlreadyUsed, st)

/-! ### OCR-generation reuse-of-files guard (entryController.js 362-385) -/

/-- One entry of `Screenshot.files` (models/Screenshot.js fileSchema). -/
structure SFile where
  role : String
  phash : String
  sha256 : String
deriving Repr, DecidableEq

/-- A previously stored OCR screenshot bundle, as read by the reuse
aggregate (only userId, linkId and files matter). -/
structure OcrDoc where
  userId : String
  linkId : String
  files : List SFile
deriving Repr, DecidableEq

/-- The aggregation pipeline of entryController.js 365-372:
match on userId and linkId, unwind the files array, match files.sha256
against the submitted hashes, then count. -/
def reusedCount (store : List OcrDoc) (userId linkId : String)
    (sha256s : List String) : Nat :=
  (((store.filter (fun d => d.userId == userId && d.linkId == linkId)).flatMap
      (fun d => d.files)).filter (fun f => sha256s.contains f.sha256)).length

/-- JS `const reuseThreshold = Math.max(presentRoles.length - 1, 2)`
(entryController.js 373). -/
def reuseThreshold (presentRolesLen : Nat) : Nat := max (presentRolesLen - 1) 2

/-- JS `reusedCount >= reuseThreshold` (entryController.js 375): the condition
under which the submission is rejected as NEAR_DUPLICATE file reuse. -/
def ocrReuseRejected (store : List OcrDoc) (userId linkId : String)
    (sha256s : List String) (presentRolesLen : Nat) : Bool :=
  decide (reusedCount store userId linkId sha256s ≥ reuseThreshold presentRolesLen)

/-! ### Text normalisation shared by part_005 `normText` and
models/Screenshot.js `normalizeText` -/

/-- JS `\w` — `[A-Za-z0-9_]`. -/
def isWordCharJS (c : Char) : Bool := c.isAlphanum || c == '_'

/-- Model of the JS regex replace collapsing every maximal whitespace run
into one space.
The flag records whether the previous character was whitespace. -/
def collapseWs : List Char → Bool → List Char
  | [], _ => []
  | c :: rest, prevWs =>
    if isSpaceJS c then
      (if prevWs then [] else [' ']) ++ collapseWs rest true
    else c :: collapseWs rest false

/-- JS `String.toLowerCase()` (ASCII case mapping). -/
def jsToLower (s : String) : String := ⟨s.data.map Char.toLower⟩

/-- JS `normText` (part_005 125-131) = `normalizeText` (Screenshot.js 52-59):
collapse whitespace, strip every character that is not a word character,
an apostrophe or whitespace, then trim and lowercase. -/
def normText (s : String) : String :=
  jsToLower (jsTrim (String.mk ((collapseWs s.data false).filter
    (fun c => isWordCharJS c || c == '\'' || isSpaceJS c))))

/-- JS `uniqueStrings` (Screenshot.js 60-71): normalise each element, keep the
first occurrence of each nonempty normalised string. -/
def uniqueStringsAux (seen : List String) : List String → List String
  | [] => []
  | s :: rest =>
    let t := normText s
    if t ≠ "" ∧ ¬ seen.contains t then t :: uniqueStringsAux (t :: seen) rest
    else uniqueStringsAux seen rest

/-- JS `uniqueStrings(arr)` (Screenshot.js 60-71). -/
def uniqueStrings (l : List String) : List String := uniqueStringsAux [] l

/-- JS startsWith applied to the at-sign character. -/
def jsStartsWithAt (s : String) : Bool :=
  match s.data with
  | [] => false
  | c :: _ => c == '@'

/-- JS `normalizeHandle` (Screenshot.js 46-51) on a truthy input: trim, prepend
`@` when missing, lowercase. -/
def normalizeHandle (h : String) : String :=
  let t := jsTrim h
  let t2 := if jsStartsWithAt t then t else "@" ++ t
  jsToLower t2

/-! ### Screenshot schema pre-validate hook (Screenshot.js 74-111) -/

/-- JS constant ALLOWED_ROLES: the five image roles, in schema order. -/
def ALLOWED_ROLES : List String := ["like", "comment1", "comment2", "reply1", "reply2"]

/-- The insertion loop of a JS `Set`: walk the list, skipping elements seen
before. -/
def jsSetAux (seen : List String) : List String → List String
  | [] => []
  | x :: xs => if seen.contains x then jsSetAux seen xs else x :: jsSetAux (x :: seen) xs

/-- JS `[...new Set(l)]`: JS `Set` iteration order keeps the first occurrence of
each distinct element. -/
def jsSetList (l : List String) : List String := jsSetAux [] l

/-- Lexicographic code-unit comparison underlying the default JS
`Array.prototype.sort()` comparator on strings. -/
def charListLe : List Char → List Char → Bool
  | [], _ => true
  | _ :: _, [] => false
  | a :: as, b :: bs =>
    if a.toNat < b.toNat then true
    else if b.toNat < a.toNat then false
    else charListLe as bs

/-- The string comparison used by the default JS sort. -/
def strLeJS (a b : String) : Bool := charListLe a.data b.data

/-- JS `Array.prototype.sort()` on strings (default lexicographic comparator). -/
def sortStrings (l : List String) : List String :=
  List.insertionSort (fun a b => strLeJS a b = true) l


/-- The `Screenshot` document fields the validation hook touches. -/
structure SDoc where
  userId : String
  linkId : String
  verified : Bool
  phashes : List String
  bundleSig : String
  bundleSha : String
  handle : Option String
  comments : List String
  replies : List String
  files : List SFile
deriving Repr, DecidableEq

/-- Embedding of the screenshotSchema pre-validate hook (Screenshot.js
74-111): require
exactly 5 distinct phashes, exactly 5 files covering every role, 5 distinct
sha256s; then derive `bundleSig`/`bundleSha` as the sorted bar-joins of the
de-duplicated hash lists and normalise handle/comments/replies. -/
def preValidateScreenshot (d : SDoc) : Except String SDoc :=
  if ¬ (d.phashes.length = 5) then .error "Exactly 5 phashes required"
  else if ¬ ((jsSetList d.phashes).length = 5) then
    .error "phashes must be unique (5 distinct)"
  else if ¬ (d.files.length = 5) then .error "Exactly 5 files required"
  else
    let roles := jsSetList (d.files.map (fun f => f.role))
    if ¬ (roles.length = ALLOWED_ROLES.length ∧ ALLOWED_ROLES.all
        (fun r => roles.contains r)) then
      .error "files must contain one of each role"
    else
      let shas := jsSetList (d.files.map (fun f => f.sha256))
      if ¬ (shas.length = 5) then .error "file sha256 values must be unique (5 distinct)"
      else
        let withSigs := { d with
          bundleSig := String.intercalate "|" (sortStrings (jsSetList d.phashes))
          bundleSha := String.intercalate "|" (sortStrings shas) }
        let withHandle :=
          match withSigs.handle with
          | some h =>
            if ¬ (h = "") then { withSigs with handle := some (normalizeHandle h) }
            else withSigs
          | none => withSigs
        .ok { withHandle with
          comments := uniqueStrings withHandle.comments
          replies := uniqueStrings withHandle.replies }

/-- Decidable equality for the result type of `preValidateScreenshot`. -/
instance : DecidableEq (Except String SDoc) := fun a b =>
  match a, b with
  | .ok x, .ok y =>
    if h : x = y then isTrue (by rw [h]) else isFalse (fun hc => h (by injection hc))
  | .error x, .error y =>
    if h : x = y then isTrue (by rw [h]) else isFalse (fun hc => h (by injection hc))
  | .ok x, .error y => isFalse (fun hc => Except.noConfusion hc)
  | .error x, .ok y => isFalse (fun hc => Except.noConfusion hc)

/-! ### YouTube reply verification (part_005 522-627) -/

/-- JS `x || null` on an optional string: the empty string is falsy. -/
def jsOrNull (o : Option String) : Option String :=
  match o with
  | some s => if s = "" then none else some s
  | none => none

/-- JS `snippet` of a reply resource as accessed by the code. -/
structure ReplySn where
  authorChannelId : Option String
  textOriginal : Option String
deriving Repr, DecidableEq

/-- A reply resource from `comments.list`; `id` may be missing (skipped). -/
structure ReplyItem where
  id : Option String
  snippet : Option ReplySn
deriving Repr, DecidableEq

/-- One page of the `comments.list(parentId, pageToken)` response. -/
structure ReplyPage where
  items : List ReplyItem
  nextPageToken : Option String
deriving Repr, DecidableEq

/-- JS `rid === wantReplyIdFull || (wantReplyIdShort && rid === wantReplyIdShort)`
(part_005 567). -/
def wantMatch (wantFull : String) (wantShort : Option String) (rid : String) : Bool :=
  rid == wantFull || (match wantShort with | some k => rid == k | none => false)

/-- The inner item scan of the reply-search loop (part_005 563-571): the
first item with a present id matching the wanted reply key. -/
def findWanted (wantFull : String) (wantShort : Option String) :
    List ReplyItem → Option (String × ReplyItem)
  | [] => none
  | r :: rest =>
    match r.id with
    | none => findWanted wantFull wantShort rest
    | some rid =>
      if wantMatch wantFull wantShort rid then some (rid, r)
      else findWanted wantFull wantShort rest

/-- Result of the bounded page search. -/
inductive SearchOutcome where
  | apiError
  | found (rid : String) (item : ReplyItem)
  | notFound
deriving Repr, DecidableEq

/-- JS `const YT_MAX_PAGES = Number(process.env.YT_MAX_PAGES || 5)` — default 5
(part_005 173). -/
def YT_MAX_PAGES : Nat := 5

/-- The paginated reply search (part_005 551-576): up to `maxPages` calls of
`ytListRepliesByParent` (each requesting `maxResults: 100`), stopping early
on an API error, on a hit, or when the page-token chain ends.  The second
component counts the pages actually fetched. -/
def searchReplies (fetch : Option String → Except Unit ReplyPage)
    (wantFull : String) (wantShort : Option String) :
    Nat → Option String → SearchOutcome × Nat
  | 0, _ => (.notFound, 0)
  | n + 1, tok =>
    match fetch tok with
    | .error _ => (.apiError, 1)
    | .ok page =>
      match findWanted wantFull wantShort page.items with
      | some pr => (.found pr.1 pr.2, 1)
      | none =>
        match page.nextPageToken with
        | none => (.notFound, 1)
        | some t =>
          let rest := searchReplies fetch wantFull wantShort n (some t)
          (rest.1, rest.2 + 1)

/-- JS `setDetectedChannel(cid, tag)` (part_005 473-481) as a function of the
current `detectedChannelId`: returns the reasons pushed and the new value. -/
def setDetectedChannel (detected : Option String) (cid : Option String)
    (tag : String) : List String × Option String :=
  match cid with
  | none => ([tag ++ "_MISSING_AUTHOR_CHANNEL"], detected)
  | some c =>
    match detected with
    | none => ([], some c)
    | some dprev =>
      if dprev = c then ([], some dprev)
      else (["MIXED_AUTHORS:" ++ dprev ++ ":" ++ c], some dprev)

/-- What the code reads from a comment thread fetched by
`commentThreads.list`: `snippet.videoId` and
`snippet.topLevelComment.snippet.authorChannelId.value`. -/
structure ThreadInfo where
  videoId : Option String
  topAuthor : Option String
deriving Repr, DecidableEq

/-- A parsed reply permalink (part_005 103-123) with `isReply = true`:
`lc = parentId ++ "." ++ replyKey`. -/
structure ParsedReply where
  permalink : String
  videoId : String
  lc : String
  parentId : String
  replyKey : Option String
deriving Repr, DecidableEq

/-- The fields of an accepted reply action the later pipeline uses. -/
structure ReplyAction where
  commentId : String
  parentId : String
  authorChannelId : String
deriving Repr, DecidableEq

/-- One iteration of the reply-verification loop (part_005 525-627) for a
parsed reply `p`: duplicate-parent check, parent-thread lookup, video check,
bounded reply search, duplicate-id check, author extraction, self-reply
check, author-consistency bookkeeping and the optional text cross-check.
Returns (reasons pushed, accepted action if any, updated detected channel).
`wantText` is `replyTexts[i]` when the client supplied reply texts. -/
def verifyReply (campaignVideoId : String) (threadMap : String → Option ThreadInfo)
    (fetchFor : String → Option String → Except Unit ReplyPage) (maxPages : Nat)
    (usedParents usedIds : List String) (detected : Option String)
    (p : ParsedReply) (wantText : Option String) :
    List String × Option ReplyAction × Option String :=
  let parentId := p.parentId
  if usedParents.contains parentId then
    (["REPLY_PARENT_DUPLICATE:" ++ parentId], none, detected)
  else
    match threadMap parentId with
    | none => (["REPLY_PARENT_NOT_FOUND:" ++ parentId], none, detected)
    | some t =>
      if ¬ (t.videoId = some campaignVideoId) then
        (["REPLY_PARENT_WRONG_VIDEO:" ++ parentId], none, detected)
      else
        let parentAuthor := jsOrNull t.topAuthor
        match searchReplies (fetchFor parentId) p.lc p.replyKey maxPages none with
        | (.apiError, _) =>
          (["REPLY_API_ERROR:" ++ parentId, "REPLY_NOT_FOUND:" ++ parentId], none, detected)
        | (.notFound, _) => (["REPLY_NOT_FOUND:" ++ parentId], none, detected)
        | (.found rid r, _) =>
          if usedIds.contains rid then (["REPLY_DUPLICATE_ID:" ++ rid], none, detected)
          else
            match jsOrNull (r.snippet.bind (fun sn => sn.authorChannelId)) with
            | none => (["REPLY_AUTHOR_MISSING:" ++ parentId], none, detected)
            | some replyAuthor =>
              if parentAuthor = some replyAuthor then
                (["REPLY_TO_OWN_COMMENT_NOT_ALLOWED:" ++ parentId], none, detected)
              else
                let sdc := setDetectedChannel detected (some replyAuthor) "REPLY"
                match wantText with
                | some rawWant =>
                  let wt := normText rawWant
                  if ¬ (wt = "") then
                    if ¬ (normText ((r.snippet.bind (fun sn => sn.textOriginal)).getD "") = wt) then
                      (sdc.1 ++ ["REPLY_TEXT_MISMATCH:" ++ rid], none, sdc.2)
                    else (sdc.1, some ⟨rid, parentId, replyAuthor⟩, sdc.2)
                  else (sdc.1, some ⟨rid, parentId, replyAuthor⟩, sdc.2)
                | none => (sdc.1, some ⟨rid, parentId, replyAuthor⟩, sdc.2)

/-- The whole reply-verification loop (part_005 522-627): fold `verifyReply`
over the parsed replies, threading the used-parent and used-id sets (only
extended on acceptance) and the detected channel.  Returns the reasons
pushed, the accepted reply actions in order and the final detected
channel. -/
def verifyReplies (campaignVideoId : String) (threadMap : String → Option ThreadInfo)
    (fetchFor : String → Option String → Except Unit ReplyPage) (maxPages : Nat) :
    List String → List String → Option String → List (ParsedReply × Option String) →
    List String × List ReplyAction × Option String
  | _, _, detected, [] => ([], [], detected)
  | usedParents, usedIds, detected, (p, wt) :: rest =>
    match verifyReply campaignVideoId threadMap fetchFor maxPages usedParents usedIds detected p wt with
    | (rs, some a, det2) =>
      let res := verifyReplies campaignVideoId threadMap fetchFor maxPages
        (p.parentId :: usedParents) (a.commentId :: usedIds) det2 rest
      (rs ++ res.1, a :: res.2.1, res.2.2)
    | (rs, none, det2) =>
      let res := verifyReplies campaignVideoId threadMap fetchFor maxPages
        usedParents usedIds det2 rest
      (rs ++ res.1, res.2.1, res.2.2)

/-! ## Theorems -/

theorem nibbleDist_comm (c d : Char) : nibbleDist c d = nibbleDist d c := by
  simp [nibbleDist, Nat.xor_comm]

theorem nibbleDist_self (c : Char) : nibbleDist c c = 0 := by
  simp [nibbleDist, Nat.xor_self]
  rfl

theorem zipWith_nibbleDist_self_sum (l : List Char) :
    (List.zipWith nibbleDist l l).sum = 0 := by
  induction l with
  | nil => rfl
  | cons c rest ih => simp [List.zipWith, nibbleDist_self, ih]

theorem zipWith_nibbleDist_comm (x y : List Char) :
    List.zipWith nibbleDist x y = List.zipWith nibbleDist y x := by
  rw [List.zipWith_comm nibbleDist]
  congr 1
  funext u v
  exact nibbleDist_comm v u

theorem hexHamming_comm_all (a b : String) : hexHamming a b = hexHamming b a := by
  simp only [hexHamming]
  rw [Nat.max_comm, zipWith_nibbleDist_comm]

theorem hexHamming_self_all (a : String) : hexHamming a a = 0 := by
  simp only [hexHamming]
  rw [Nat.max_self]
  have hpad : padStartZeros a.data a.data.length = a.data := by
    simp [padStartZeros]
  rw [hpad]
  exact zipWith_nibbleDist_self_sum a.data

/-- C9: for all valid hex strings a and b (unequal lengths are left-padded
with zeros inside `hexHamming`), `hexHamming a b = hexHamming b a`, and
`hexHamming a a = 0`. -/
theorem hexHamming_symm_and_self (a b : String)
    (ha : ∀ c ∈ a.data, isHexDigitJS c) (hb : ∀ c ∈ b.data, isHexDigitJS c) :
    hexHamming a b = hexHamming b a ∧ hexHamming a a = 0 :=
  ⟨hexHamming_comm_all a b, hexHamming_self_all a⟩

/-- Witness for C9 at the concrete hex strings "a9f" and "07". -/
theorem hexHamming_symm_and_self_witness :
    hexHamming "a9f" "07" = hexHamming "07" "a9f" ∧ hexHamming "a9f" "a9f" = 0 :=
  hexHamming_symm_and_self "a9f" "07" (by decide) (by decide)

/-- C1 counterexample: with rules minComments = 2, minReplies = 2,
requireLike = true and extracted evidence commentCount = 2, replyCount = 2,
liked = true, the claimed biconditional forces verified = true (the
right-hand side below evaluates to true), but the code leaves the verified
flag false when no author handle was extracted (user_id null):
entryController.js 429-436 also conjoins `hasHandle`. -/
theorem verified_requires_handle_cex :
    verifiedFlask none 2 2 true 2 2 true = false
      ∧ (decide ((2 : Nat) ≥ 2) && decide ((2 : Nat) ≥ 2) && (!true || true)) = true := by
  decide

/-- C1 (amended): the biconditional holds once the extra conjuncts of the
code are added.  In the Flask/OCR generation, for evidence carrying a
nonempty extracted handle, verified is true iff commentCount ≥ minComments
and replyCount ≥ minReplies and (requireLike implies liked).  In the
YouTube-API generation, when no failure reasons were recorded, verified is
true iff the two count thresholds hold — there the like conjunct is vacuous
because liked is assumed true whenever the campaign requires it. -/
theorem verified_iff_rules_amended (s : String) (cc rc mc mr : Nat)
    (liked rl : Bool) (reasons : List String)
    (hs : (jsTrim s).length > 0) (hr : reasons = []) :
    verifiedFlask (some s) cc rc liked mc mr rl
        = (decide (cc ≥ mc) && decide (rc ≥ mr) && (!rl || liked))
      ∧ verifiedYT reasons cc rc mc mr rl
        = (decide (cc ≥ mc) && decide (rc ≥ mr)) := by
  subst hr
  constructor
  · simp only [verifiedFlask, hasHandle, hs, decide_True]
    cases rl <;> cases liked <;> simp
  · simp only [verifiedYT, List.isEmpty_nil, Bool.true_and]
    cases rl <;> simp

/-- Witness for C1 (amended) at handle "@alice", counts (2, 1), rules
(2, 2, requireLike = false). -/
theorem verified_iff_rules_amended_witness :
    verifiedFlask (some "@alice") 2 1 true 2 2 false
        = (decide ((2 : Nat) ≥ 2) && decide ((1 : Nat) ≥ 2) && (!false || true))
      ∧ verifiedYT [] 2 1 2 2 false
        = (decide ((2 : Nat) ≥ 2) && decide ((1 : Nat) ≥ 2)) :=
  verified_iff_rules_amended "@alice" 2 1 2 2 true false [] (by decide) rfl

/-- C5 counterexample: an entry already resolved as rejected (status 0) is
not terminal — approving it succeeds, flips the status to 1 and debits the
employee (balance 100 drops to 50), because `setEntryStatus` only
short-circuits when the requested status equals the current one. -/
theorem rejected_entry_can_be_approved_cex :
    (setEntryStatus ⟨"e1", 0, some 0, some "E", none, some 50, none⟩
        (fun _ => some 100) 1).1 = .applied 1 (some 50)
      ∧ (setEntryStatus ⟨"e1", 0, some 0, some "E", none, some 50, none⟩
        (fun _ => some 100) 1).2.1.status = some 1 := by
  constructor <;> rfl

/-- C5 (amended): a transition request equal to the current status is a
no-op response, not an error; a transition to a DIFFERENT status is always
applied — pending to approved debits the employee, any transition to
rejected (from pending or from approved) applies without debit or refund,
and a rejected entry can still be approved (with debit).  Resolved states
are therefore not terminal; only re-triggering the same status is a no-op. -/
theorem entry_status_transitions_amended :
    (∀ (e : EntryDoc) (emp : String → Option Int) (s : Nat),
      (s = 0 ∨ s = 1) → e.status = some s →
        setEntryStatus e emp s = (.alreadyResolved s, e, emp))
  ∧ (∀ (e : EntryDoc) (emp : String → Option Int) (ded : Int) (empId : String) (bal : Int),
      ¬ (e.status = some 1) → deductionTarget e = some (ded, empId) →
      emp empId = some bal → ¬ (bal < ded) →
        setEntryStatus e emp 1
          = (.applied 1 (some (bal - ded)), { e with status := some 1 },
             fun x => if x = empId then some (bal - ded) else emp x))
  ∧ (∀ (e : EntryDoc) (emp : String → Option Int), ¬ (e.status = some 0) →
        setEntryStatus e emp 0 = (.applied 0 none, { e with status := some 0 }, emp)) := by
  refine ⟨?_, ?_, ?_⟩
  · intro e emp s hs hstat
    rcases hs with h | h <;> subst h <;> simp [setEntryStatus, hstat]
  · intro e emp ded empId bal hne htarget hemp hbal
    simp [setEntryStatus, hne, htarget, hemp, hbal]
  · intro e emp hne
    simp [setEntryStatus, hne]

/-- Witness for C5 (amended): a pending user entry (type 1, worksUnder "W",
totalAmount 30) is approved and the employee balance 100 becomes 70. -/
theorem entry_status_transitions_amended_witness :
    setEntryStatus ⟨"e2", 1, none, none, some "W", none, some 30⟩
        (fun _ => some 100) 1
      = (.applied 1 (some 70),
         ⟨"e2", 1, some 1, none, some "W", none, some 30⟩,
         fun x => if x = "W" then some 70 else some 100) :=
  entry_status_transitions_amended.2.1
    ⟨"e2", 1, none, none, some "W", none, some 30⟩ (fun _ => some 100)
    30 "W" 100 (by simp) (by decide) rfl (by decide)

/-- C8 counterexample: a bundle of 2 images of which exactly 1 exact file
hash was already submitted by the same user for the same campaign.  The
claim (reject when at least imageCount − 1 = 1 hash is reused) demands a
rejection, but the code computes the threshold as
`Math.max(presentRoles.length - 1, 2) = 2` and accepts. -/
theorem reuse_threshold_cex :
    ocrReuseRejected
        [⟨"u1", "l1", [⟨"comment1", "p1", "aa"⟩, ⟨"comment2", "p2", "bb"⟩]⟩]
        "u1" "l1" ["aa", "zz"] 2 = false
      ∧ reusedCount
        [⟨"u1", "l1", [⟨"comment1", "p1", "aa"⟩, ⟨"comment2", "p2", "bb"⟩]⟩]
        "u1" "l1" ["aa", "zz"] ≥ 2 - 1 := by
  decide

/-- C8 (amended): the submission is rejected as file reuse exactly when the
number of file entries among the previous same-user same-campaign bundles
whose sha256 appears in the new bundle is at least
max(imageCount − 1, 2); for bundles of at least 3 images this coincides
with the claimed threshold imageCount − 1. -/
theorem reuse_threshold_amended (store : List OcrDoc) (u l : String)
    (shas : List String) (n : Nat) (hn : 3 ≤ n) :
    (ocrReuseRejected store u l shas n = true ↔
      reusedCount store u l shas ≥ max (n - 1) 2)
    ∧ (ocrReuseRejected store u l shas n = true ↔
      reusedCount store u l shas ≥ n - 1) := by
  have hmax : max (n - 1) 2 = n - 1 := by omega
  constructor
  · simp [ocrReuseRejected, reuseThreshold]
  · simp [ocrReuseRejected, reuseThreshold, hmax]

/-- Witness for C8 (amended) at a 5-image bundle with 4 reused hashes. -/
theorem reuse_threshold_amended_witness :
    (ocrReuseRejected
        [⟨"u1", "l1", [⟨"like", "p0", "s0"⟩, ⟨"comment1", "p1", "s1"⟩,
          ⟨"comment2", "p2", "s2"⟩, ⟨"reply1", "p3", "s3"⟩, ⟨"reply2", "p4", "s4"⟩]⟩]
        "u1" "l1" ["s0", "s1", "s2", "s3", "zz"] 5 = true ↔
      reusedCount
        [⟨"u1", "l1", [⟨"like", "p0", "s0"⟩, ⟨"comment1", "p1", "s1"⟩,
          ⟨"comment2", "p2", "s2"⟩, ⟨"reply1", "p3", "s3"⟩, ⟨"reply2", "p4", "s4"⟩]⟩]
        "u1" "l1" ["s0", "s1", "s2", "s3", "zz"] ≥ max (5 - 1) 2)
    ∧ (ocrReuseRejected
        [⟨"u1", "l1", [⟨"like", "p0", "s0"⟩, ⟨"comment1", "p1", "s1"⟩,
          ⟨"comment2", "p2", "s2"⟩, ⟨"reply1", "p3", "s3"⟩, ⟨"reply2", "p4", "s4"⟩]⟩]
        "u1" "l1" ["s0", "s1", "s2", "s3", "zz"] 5 = true ↔
      reusedCount
        [⟨"u1", "l1", [⟨"like", "p0", "s0"⟩, ⟨"comment1", "p1", "s1"⟩,
          ⟨"comment2", "p2", "s2"⟩, ⟨"reply1", "p3", "s3"⟩, ⟨"reply2", "p4", "s4"⟩]⟩]
        "u1" "l1" ["s0", "s1", "s2", "s3", "zz"] ≥ 5 - 1) :=
  reuse_threshold_amended _ "u1" "l1" _ 5 (by decide)

theorem findPayout_append (l₁ l₂ : List Payout) (e u t : String) :
    findPayout (l₁ ++ l₂) e u t = (findPayout l₁ e u t).or (findPayout l₂ e u t) :=
  List.find?_append

/-- C4: settlement debit — (1)+(2) calling twice for the same
(employeeId, userId, taskId) decrements the balance exactly once, the second
call reporting already-paid on an unchanged state; (3) a duplicate-key
failure on the payout insert caused by a concurrently committed payout rolls
the transaction back (balance restored) and produces the same already-paid
outcome, not a fatal error; (4)+(5) a zero-row conditional decrement is
split by the follow-up existence check into employee-not-found and
insufficient-funds. -/
theorem deduct_idempotent_and_race_safe
    (st : SettleState) (eId uId tId : String) (amt bal : Int)
    (hamt : 0 < amt) (hbal : st.employees eId = some bal) (hge : amt ≤ bal)
    (hnone : findPayout st.payouts eId uId tId = none) :
    ((deductEmployeeBalanceForTask st [] eId uId tId amt).1 = .success amt (bal - amt)
      ∧ (deductEmployeeBalanceForTask st [] eId uId tId amt).2.employees eId
          = some (bal - amt))
  ∧ ((deductEmployeeBalanceForTask
        (deductEmployeeBalanceForTask st [] eId uId tId amt).2 [] eId uId tId amt).1
        = .alreadyPaid (some amt)
      ∧ (deductEmployeeBalanceForTask
        (deductEmployeeBalanceForTask st [] eId uId tId amt).2 [] eId uId tId amt).2
        = (deductEmployeeBalanceForTask st [] eId uId tId amt).2)
  ∧ ((deductEmployeeBalanceForTask st [⟨eId, uId, tId, amt⟩] eId uId tId amt).1
        = .alreadyPaid none
      ∧ (deductEmployeeBalanceForTask st [⟨eId, uId, tId, amt⟩] eId uId tId amt).2.employees eId
        = some bal)
  ∧ (∀ e2, st.employees e2 = none → findPayout st.payouts e2 uId tId = none →
        (deductEmployeeBalanceForTask st [] e2 uId tId amt).1 = .employeeNotFound)
  ∧ (∀ e2 b2, st.employees e2 = some b2 → b2 < amt →
        findPayout st.payouts e2 uId tId = none →
        (deductEmployeeBalanceForTask st [] e2 uId tId amt).1 = .insufficientFunds) := by
  have hne : ¬ amt ≤ 0 := by omega
  have hnlt : ¬ bal < amt := by omega
  have h1 : deductEmployeeBalanceForTask st [] eId uId tId amt =
      (.success amt (bal - amt),
       { employees := fun e => if e = eId then some (bal - amt) else st.employees e
         history := (eId, -amt) :: st.history
         payouts := (st.payouts ++ []) ++ [⟨eId, uId, tId, amt⟩] }) := by
    simp only [deductEmployeeBalanceForTask, if_neg hne, hnone, hbal, if_neg hnlt,
      List.append_nil]
    simp [hnone]
  have h2 : findPayout (st.payouts ++ [⟨eId, uId, tId, amt⟩]) eId uId tId
      = some ⟨eId, uId, tId, amt⟩ := by
    rw [findPayout_append, hnone]
    simp [findPayout]
  refine ⟨⟨?_, ?_⟩, ⟨?_, ?_⟩, ⟨?_, ?_⟩, ?_, ?_⟩
  · rw [h1]
  · rw [h1]; simp
  · rw [h1]
    simp only [deductEmployeeBalanceForTask, if_neg hne]
    simp [h2]
  · rw [h1]
    simp only [deductEmployeeBalanceForTask, if_neg hne]
    simp [h2]
  · simp only [deductEmployeeBalanceForTask, if_neg hne, hnone, hbal, if_neg hnlt]
    simp [h2]
  · simp only [deductEmployeeBalanceForTask, if_neg hne, hnone, hbal, if_neg hnlt]
    simp [h2, hbal]
  · intro e2 hmiss hnone2
    simp [deductEmployeeBalanceForTask, if_neg hne, hnone2, hmiss]
  · intro e2 b2 hb2 hlt hnone2
    simp [deductEmployeeBalanceForTask, if_neg hne, hnone2, hb2, hlt]

/-- Witness for C4 at a concrete settlement state: employee E holds 100,
employee F holds 10, no payouts yet; the task pays 40. -/
theorem deduct_idempotent_and_race_safe_witness :
    ((deductEmployeeBalanceForTask
        ⟨fun e => if e = "E" then some 100 else if e = "F" then some 10 else none, [], []⟩
        [] "E" "U" "T" 40).1 = .success 40 60
      ∧ (deductEmployeeBalanceForTask
        ⟨fun e => if e = "E" then some 100 else if e = "F" then some 10 else none, [], []⟩
        [] "E" "U" "T" 40).2.employees "E" = some 60)
  ∧ ((deductEmployeeBalanceForTask
        (deductEmployeeBalanceForTask
          ⟨fun e => if e = "E" then some 100 else if e = "F" then some 10 else none, [], []⟩
          [] "E" "U" "T" 40).2 [] "E" "U" "T" 40).1 = .alreadyPaid (some 40)
      ∧ (deductEmployeeBalanceForTask
        (deductEmployeeBalanceForTask
          ⟨fun e => if e = "E" then some 100 else if e = "F" then some 10 else none, [], []⟩
          [] "E" "U" "T" 40).2 [] "E" "U" "T" 40).2
        = (deductEmployeeBalanceForTask
          ⟨fun e => if e = "E" then some 100 else if e = "F" then some 10 else none, [], []⟩
          [] "E" "U" "T" 40).2)
  ∧ ((deductEmployeeBalanceForTask
        ⟨fun e => if e = "E" then some 100 else if e = "F" then some 10 else none, [], []⟩
        [⟨"E", "U", "T", 40⟩] "E" "U" "T" 40).1 = .alreadyPaid none
      ∧ (deductEmployeeBalanceForTask
        ⟨fun e => if e = "E" then some 100 else if e = "F" then some 10 else none, [], []⟩
        [⟨"E", "U", "T", 40⟩] "E" "U" "T" 40).2.employees "E" = some 100)
  ∧ (deductEmployeeBalanceForTask
        ⟨fun e => if e = "E" then some 100 else if e = "F" then some 10 else none, [], []⟩
        [] "X" "U" "T" 40).1 = .employeeNotFound
  ∧ (deductEmployeeBalanceForTask
        ⟨fun e => if e = "E" then some 100 else if e = "F" then some 10 else none, [], []⟩
        [] "F" "U" "T" 40).1 = .insufficientFunds := by
  have h := deduct_idempotent_and_race_safe
    ⟨fun e => if e = "E" then some 100 else if e = "F" then some 10 else none, [], []⟩
    "E" "U" "T" 40 100 (by decide) rfl (by decide) rfl
  exact ⟨h.1, h.2.1, h.2.2.1, h.2.2.2.1 "X" rfl rfl, h.2.2.2.2 "F" 10 rfl (by decide) rfl⟩

theorem any_false_of_clean {store : List ScreenshotDoc} {l : String}
    (hclean : ∀ d ∈ store, ¬ d.linkId = l) (q : ScreenshotDoc → Bool)
    (hq : ∀ o, q o = true → o.linkId = l) : store.any q = false :=
  List.any_eq_false.mpr (fun o ho h => hclean o ho (hq o h))

theorem reuse_find_none_of_clean {store : List ScreenshotDoc} {l : String}
    (hclean : ∀ d ∈ store, ¬ d.linkId = l) (u : String) (uc ur au : List String) :
    List.find? (reuseMatch l u uc ur au) store = none := by
  apply List.find?_eq_none.mpr
  intro d hd
  simp only [reuseMatch, Bool.and_eq_true, beq_iff_eq]
  rintro ⟨⟨⟨h1, -⟩, -⟩, -⟩
  exact hclean d hd h1

theorem reuse_none_of_clean {store : List ScreenshotDoc} {l : String}
    (hclean : ∀ d ∈ store, ¬ d.linkId = l) (u : String) (uc ur au : List String) :
    reuseByOtherUser store l u uc ur au = none :=
  reuse_find_none_of_clean hclean u uc ur au

theorem userlink_find_none_of_clean {store : List ScreenshotDoc} {l : String}
    (hclean : ∀ d ∈ store, ¬ d.linkId = l) (u : String) :
    store.find? (fun d => d.userId == u && d.linkId == l) = none := by
  apply List.find?_eq_none.mpr
  intro d hd
  simp only [Bool.and_eq_true, beq_iff_eq]
  rintro ⟨-, h2⟩
  exact hclean d hd h2

theorem submit_to_clean_store (store : List ScreenshotDoc)
    (u l vid ch idA : String) (cA rA : List String)
    (hclean : ∀ d ∈ store, ¬ d.linkId = l) :
    submitVerified store u l vid ch idA cA rA
      = (.ok ⟨idA, u, l, true, vid, ch, uniq cA, uniq rA, cA ++ rA, cA, rA⟩,
         store ++ [(⟨idA, u, l, true, vid, ch, uniq cA, uniq rA, cA ++ rA, cA, rA⟩ : ScreenshotDoc)]) := by
  have hre := reuse_none_of_clean hclean u cA rA (uniq (cA ++ rA))
  have hfind := userlink_find_none_of_clean hclean u
  have h1 : store.any (fun o => o.userId == u && o.linkId == l) = false :=
    any_false_of_clean hclean _ (by
      intro o h
      simp only [Bool.and_eq_true, beq_iff_eq] at h
      exact h.2)
  have h2 : store.any (fun o =>
      o.verified && o.linkId == l && listInter o.commentIds (uniq cA)) = false :=
    any_false_of_clean hclean _ (by
      intro o h
      simp only [Bool.and_eq_true, beq_iff_eq] at h
      exact h.1.2)
  have h3 : store.any (fun o =>
      o.verified && o.linkId == l && listInter o.replyIds (uniq rA)) = false :=
    any_false_of_clean hclean _ (by
      intro o h
      simp only [Bool.and_eq_true, beq_iff_eq] at h
      exact h.1.2)
  simp only [submitVerified, hre, persistScreenshot, hfind, dupKeyFor]
  simp [h1, h2, h3]

/-- C2: cross-user exclusivity for a shared comment id `c` and a shared
reply id `rs` on campaign `l` — (1) user A submits and is recorded
verified; (2) a different user B then submitting proof referencing the
comment id `c` fails with the app-layer reuse pre-check identifying A and
the screenshot id of the holding record, the store unchanged; (3) the final
store holds exactly one verified record for (l, c); (4) storage-level
enforcement: even calling the persistence layer directly (bypassing the
pre-check), the unique partial index on (linkId, commentIds) restricted to
verified records raises the duplicate-key outcome mapped to
COMMENT_ALREADY_USED; (5) a submission by B referencing the reply id `rs`
likewise fails with the pre-check identifying A, the store unchanged;
(6) the final store holds exactly one verified record for (l, rs); (7) a
direct reply-only persist by B bypassing the pre-check hits the unique
partial index on (linkId, replyIds) restricted to verified records, the
duplicate-key outcome mapped to REPLY_ALREADY_USED. -/
theorem cross_user_reuse_exclusivity
    (store : List ScreenshotDoc) (uA uB l vid ch idA vid2 ch2 idB : String)
    (cA rA cB rB cI rI aI anaC anaR : List String) (c : String)
    (vid3 ch3 idB2 : String) (cB2 rB2 rI2 aI2 anaR2 : List String) (rs : String)
    (hclean : ∀ d ∈ store, ¬ d.linkId = l)
    (hAB : ¬ uA = uB)
    (hcA : c ∈ uniq cA) (hcB : c ∈ cB) (hcI : c ∈ cI)
    (hrA : rs ∈ uniq rA) (hrB : rs ∈ rB2) (hrI : rs ∈ rI2) :
    submitVerified store uA l vid ch idA cA rA
      = (.ok ⟨idA, uA, l, true, vid, ch, uniq cA, uniq rA, cA ++ rA, cA, rA⟩,
         store ++ [(⟨idA, uA, l, true, vid, ch, uniq cA, uniq rA, cA ++ rA, cA, rA⟩ : ScreenshotDoc)])
  ∧ submitVerified
        (store ++ [(⟨idA, uA, l, true, vid, ch, uniq cA, uniq rA, cA ++ rA, cA, rA⟩ : ScreenshotDoc)])
        uB l vid2 ch2 idB cB rB
      = (.conflictOtherUser uA idA,
         store ++ [(⟨idA, uA, l, true, vid, ch, uniq cA, uniq rA, cA ++ rA, cA, rA⟩ : ScreenshotDoc)])
  ∧ ((store ++ [(⟨idA, uA, l, true, vid, ch, uniq cA, uniq rA, cA ++ rA, cA, rA⟩ : ScreenshotDoc)]).filter
        (fun d => d.linkId == l && d.verified && d.commentIds.contains c)).length = 1
  ∧ (persistScreenshot
        (store ++ [(⟨idA, uA, l, true, vid, ch, uniq cA, uniq rA, cA ++ rA, cA, rA⟩ : ScreenshotDoc)])
        uB l vid2 ch2 idB cI rI aI anaC anaR).1 = .dupCommentIndex
  ∧ submitVerified
        (store ++ [(⟨idA, uA, l, true, vid, ch, uniq cA, uniq rA, cA ++ rA, cA, rA⟩ : ScreenshotDoc)])
        uB l vid3 ch3 idB2 cB2 rB2
      = (.conflictOtherUser uA idA,
         store ++ [(⟨idA, uA, l, true, vid, ch, uniq cA, uniq rA, cA ++ rA, cA, rA⟩ : ScreenshotDoc)])
  ∧ ((store ++ [(⟨idA, uA, l, true, vid, ch, uniq cA, uniq rA, cA ++ rA, cA, rA⟩ : ScreenshotDoc)]).filter
        (fun d => d.linkId == l && d.verified && d.replyIds.contains rs)).length = 1
  ∧ (persistScreenshot
        (store ++ [(⟨idA, uA, l, true, vid, ch, uniq cA, uniq rA, cA ++ rA, cA, rA⟩ : ScreenshotDoc)])
        uB l vid3 ch3 idB2 [] rI2 aI2 [] anaR2).1 = .dupReplyIndex := by
  have huser : (uA == uB) = false := by
    simp only [beq_eq_false_iff_ne, ne_eq]
    exact hAB
  have hinter : listInter (uniq cA) cB = true := by
    simp only [listInter, List.any_eq_true]
    refine ⟨c, hcA, ?_⟩
    simpa using hcB
  have hinterR : listInter (uniq rA) rB2 = true := by
    simp only [listInter, List.any_eq_true]
    refine ⟨rs, hrA, ?_⟩
    simpa using hrB
  have hfind : (store ++
      [(⟨idA, uA, l, true, vid, ch, uniq cA, uniq rA, cA ++ rA, cA, rA⟩ : ScreenshotDoc)]).find?
        (fun d => d.userId == uB && d.linkId == l) = none := by
    rw [List.find?_append, userlink_find_none_of_clean hclean uB]
    simp [List.find?, huser]
  have hany1 : (store ++
      [(⟨idA, uA, l, true, vid, ch, uniq cA, uniq rA, cA ++ rA, cA, rA⟩ : ScreenshotDoc)]).any
        (fun o => o.userId == uB && o.linkId == l) = false := by
    rw [List.any_append]
    have hs : store.any (fun o => o.userId == uB && o.linkId == l) = false :=
      any_false_of_clean hclean _ (by
        intro o h
        simp only [Bool.and_eq_true, beq_iff_eq] at h
        exact h.2)
    rw [hs]
    simp [huser]
  refine ⟨submit_to_clean_store store uA l vid ch idA cA rA hclean,
    ?_, ?_, ?_, ?_, ?_, ?_⟩
  · have hmatch : reuseMatch l uB cB rB (uniq (cB ++ rB))
        ⟨idA, uA, l, true, vid, ch, uniq cA, uniq rA, cA ++ rA, cA, rA⟩ = true := by
      show (l == l && true && !(uA == uB)
          && (listInter (uniq cA) cB || listInter (uniq rA) rB
              || listInter (cA ++ rA) (uniq (cB ++ rB))
              || listInter cA cB || listInter rA rB)) = true
      rw [huser, hinter]
      simp
    have hre : reuseByOtherUser
        (store ++ [(⟨idA, uA, l, true, vid, ch, uniq cA, uniq rA, cA ++ rA, cA, rA⟩ : ScreenshotDoc)])
        l uB cB rB (uniq (cB ++ rB))
        = some ⟨idA, uA, l, true, vid, ch, uniq cA, uniq rA, cA ++ rA, cA, rA⟩ := by
      unfold reuseByOtherUser
      rw [List.find?_append, reuse_find_none_of_clean hclean uB cB rB (uniq (cB ++ rB))]
      simp [List.find?, hmatch]
    simp only [submitVerified, hre]
  · rw [List.filter_append]
    have hnil : store.filter
        (fun d => d.linkId == l && d.verified && d.commentIds.contains c) = [] := by
      apply List.filter_eq_nil_iff.mpr
      intro d hd
      simp only [Bool.and_eq_true, beq_iff_eq]
      rintro ⟨⟨h1, -⟩, -⟩
      exact hclean d hd h1
    rw [hnil]
    simp [hcA]
  · have hinterI : listInter (uniq cA) cI = true := by
      simp only [listInter, List.any_eq_true]
      refine ⟨c, hcA, ?_⟩
      simpa using hcI
    have hany2 : (store ++
        [(⟨idA, uA, l, true, vid, ch, uniq cA, uniq rA, cA ++ rA, cA, rA⟩ : ScreenshotDoc)]).any
          (fun o => o.verified && o.linkId == l && listInter o.commentIds cI) = true := by
      rw [List.any_append]
      have hdoc : ([(⟨idA, uA, l, true, vid, ch, uniq cA, uniq rA, cA ++ rA, cA,
          rA⟩ : ScreenshotDoc)].any
            (fun o => o.verified && o.linkId == l && listInter o.commentIds cI)) = true := by
        show ((true && (l == l) && listInter (uniq cA) cI) || false) = true
        rw [hinterI]
        simp
      rw [hdoc]
      simp
    simp only [persistScreenshot, hfind, dupKeyFor]
    simp [hany1, hany2]
  · have hmatch2 : reuseMatch l uB cB2 rB2 (uniq (cB2 ++ rB2))
        ⟨idA, uA, l, true, vid, ch, uniq cA, uniq rA, cA ++ rA, cA, rA⟩ = true := by
      show (l == l && true && !(uA == uB)
          && (listInter (uniq cA) cB2 || listInter (uniq rA) rB2
              || listInter (cA ++ rA) (uniq (cB2 ++ rB2))
              || listInter cA cB2 || listInter rA rB2)) = true
      rw [huser, hinterR]
      simp
    have hre2 : reuseByOtherUser
        (store ++ [(⟨idA, uA, l, true, vid, ch, uniq cA, uniq rA, cA ++ rA, cA, rA⟩ : ScreenshotDoc)])
        l uB cB2 rB2 (uniq (cB2 ++ rB2))
        = some ⟨idA, uA, l, true, vid, ch, uniq cA, uniq rA, cA ++ rA, cA, rA⟩ := by
      unfold reuseByOtherUser
      rw [List.find?_append, reuse_find_none_of_clean hclean uB cB2 rB2 (uniq (cB2 ++ rB2))]
      simp [List.find?, hmatch2]
    simp only [submitVerified, hre2]
  · rw [List.filter_append]
    have hnil : store.filter
        (fun d => d.linkId == l && d.verified && d.replyIds.contains rs) = [] := by
      apply List.filter_eq_nil_iff.mpr
      intro d hd
      simp only [Bool.and_eq_true, beq_iff_eq]
      rintro ⟨⟨h1, -⟩, -⟩
      exact hclean d hd h1
    rw [hnil]
    simp [hrA]
  · have hinterRI : listInter (uniq rA) rI2 = true := by
      simp only [listInter, List.any_eq_true]
      refine ⟨rs, hrA, ?_⟩
      simpa using hrI
    have hany2 : (store ++
        [(⟨idA, uA, l, true, vid, ch, uniq cA, uniq rA, cA ++ rA, cA, rA⟩ : ScreenshotDoc)]).any
          (fun o => o.verified && o.linkId == l
            && listInter o.commentIds ([] : List String)) = false := by
      simp [listInter]
    have hany3 : (store ++
        [(⟨idA, uA, l, true, vid, ch, uniq cA, uniq rA, cA ++ rA, cA, rA⟩ : ScreenshotDoc)]).any
          (fun o => o.verified && o.linkId == l && listInter o.replyIds rI2) = true := by
      rw [List.any_append]
      have hdoc : ([(⟨idA, uA, l, true, vid, ch, uniq cA, uniq rA, cA ++ rA, cA,
          rA⟩ : ScreenshotDoc)].any
            (fun o => o.verified && o.linkId == l && listInter o.replyIds rI2)) = true := by
        show ((true && (l == l) && listInter (uniq rA) rI2) || false) = true
        rw [hinterRI]
        simp
      rw [hdoc]
      simp
    simp only [persistScreenshot, hfind, dupKeyFor]
    simp [hany1, hany2, hany3]

/-- Witness for C2: user A verifies comments c1, c2 and replies r1, r2 on
campaign L; user B then tries to reuse comment c1, and separately reply r1,
both through the pre-check and directly against the indexes. -/
theorem cross_user_reuse_exclusivity_witness :
    submitVerified [] "A" "L" "V" "UC_A" "S1" ["c1", "c2"] ["r1", "r2"]
      = (.ok ⟨"S1", "A", "L", true, "V", "UC_A", uniq ["c1", "c2"], uniq ["r1", "r2"],
          ["c1", "c2"] ++ ["r1", "r2"], ["c1", "c2"], ["r1", "r2"]⟩,
         [] ++ [(⟨"S1", "A", "L", true, "V", "UC_A", uniq ["c1", "c2"], uniq ["r1", "r2"],
          ["c1", "c2"] ++ ["r1", "r2"], ["c1", "c2"], ["r1", "r2"]⟩ : ScreenshotDoc)])
  ∧ submitVerified
        ([] ++ [(⟨"S1", "A", "L", true, "V", "UC_A", uniq ["c1", "c2"], uniq ["r1", "r2"],
          ["c1", "c2"] ++ ["r1", "r2"], ["c1", "c2"], ["r1", "r2"]⟩ : ScreenshotDoc)])
        "B" "L" "V" "UC_B" "S2" ["c1", "c9"] ["r9"]
      = (.conflictOtherUser "A" "S1",
         [] ++ [(⟨"S1", "A", "L", true, "V", "UC_A", uniq ["c1", "c2"], uniq ["r1", "r2"],
          ["c1", "c2"] ++ ["r1", "r2"], ["c1", "c2"], ["r1", "r2"]⟩ : ScreenshotDoc)])
  ∧ ((([] : List ScreenshotDoc) ++ [(⟨"S1", "A", "L", true, "V", "UC_A", uniq ["c1", "c2"], uniq ["r1", "r2"],
          ["c1", "c2"] ++ ["r1", "r2"], ["c1", "c2"], ["r1", "r2"]⟩ : ScreenshotDoc)]).filter
        (fun d => d.linkId == "L" && d.verified && d.commentIds.contains "c1")).length = 1
  ∧ (persistScreenshot
        ([] ++ [(⟨"S1", "A", "L", true, "V", "UC_A", uniq ["c1", "c2"], uniq ["r1", "r2"],
          ["c1", "c2"] ++ ["r1", "r2"], ["c1", "c2"], ["r1", "r2"]⟩ : ScreenshotDoc)])
        "B" "L" "V" "UC_B" "S2" ["c1"] [] ["c1"] ["c1"] []).1 = .dupCommentIndex
  ∧ submitVerified
        ([] ++ [(⟨"S1", "A", "L", true, "V", "UC_A", uniq ["c1", "c2"], uniq ["r1", "r2"],
          ["c1", "c2"] ++ ["r1", "r2"], ["c1", "c2"], ["r1", "r2"]⟩ : ScreenshotDoc)])
        "B" "L" "V" "UC_B" "S3" ["c7"] ["r1", "r8"]
      = (.conflictOtherUser "A" "S1",
         [] ++ [(⟨"S1", "A", "L", true, "V", "UC_A", uniq ["c1", "c2"], uniq ["r1", "r2"],
          ["c1", "c2"] ++ ["r1", "r2"], ["c1", "c2"], ["r1", "r2"]⟩ : ScreenshotDoc)])
  ∧ ((([] : List ScreenshotDoc) ++ [(⟨"S1", "A", "L", true, "V", "UC_A", uniq ["c1", "c2"], uniq ["r1", "r2"],
          ["c1", "c2"] ++ ["r1", "r2"], ["c1", "c2"], ["r1", "r2"]⟩ : ScreenshotDoc)]).filter
        (fun d => d.linkId == "L" && d.verified && d.replyIds.contains "r1")).length = 1
  ∧ (persistScreenshot
        ([] ++ [(⟨"S1", "A", "L", true, "V", "UC_A", uniq ["c1", "c2"], uniq ["r1", "r2"],
          ["c1", "c2"] ++ ["r1", "r2"], ["c1", "c2"], ["r1", "r2"]⟩ : ScreenshotDoc)])
        "B" "L" "V" "UC_B" "S3" [] ["r1"] ["r1"] [] ["r1"]).1 = .dupReplyIndex :=
  cross_user_reuse_exclusivity [] "A" "B" "L" "V" "UC_A" "S1" "V" "UC_B" "S2"
    ["c1", "c2"] ["r1", "r2"] ["c1", "c9"] ["r9"] ["c1"] [] ["c1"] ["c1"] [] "c1"
    "V" "UC_B" "S3" ["c7"] ["r1", "r8"] ["r1"] ["r1"] ["r1"] "r1"
    (by intro d hd; cases hd) (by decide) (by decide) (by decide) (by decide)
    (by decide) (by decide) (by decide)

/-- C3: same-user resubmission — after user `u` submits valid proof for
campaign `l` and then submits again (possibly with different ids), the
second call is an update-in-place, not an error and not a second record:
it returns ok with the same screenshotId, and exactly one Screenshot
record for (u, l) exists afterwards. -/
theorem same_user_resubmit_updates_in_place
    (store : List ScreenshotDoc) (u l vid ch idA vid2 ch2 idB : String)
    (cA rA cB rB : List String)
    (hclean : ∀ d ∈ store, ¬ d.linkId = l)
    (hfresh : ∀ d ∈ store, ¬ d.screenshotId = idA) :
    submitVerified store u l vid ch idA cA rA
      = (.ok ⟨idA, u, l, true, vid, ch, uniq cA, uniq rA, cA ++ rA, cA, rA⟩,
         store ++ [(⟨idA, u, l, true, vid, ch, uniq cA, uniq rA, cA ++ rA, cA, rA⟩ : ScreenshotDoc)])
  ∧ submitVerified
        (store ++ [(⟨idA, u, l, true, vid, ch, uniq cA, uniq rA, cA ++ rA, cA, rA⟩ : ScreenshotDoc)])
        u l vid2 ch2 idB cB rB
      = (.ok ⟨idA, u, l, true, vid2, ch2, uniq cB, uniq rB, cB ++ rB, cB, rB⟩,
         store ++ [(⟨idA, u, l, true, vid2, ch2, uniq cB, uniq rB, cB ++ rB, cB, rB⟩ : ScreenshotDoc)])
  ∧ ((store ++ [(⟨idA, u, l, true, vid2, ch2, uniq cB, uniq rB, cB ++ rB, cB, rB⟩ : ScreenshotDoc)]).filter
        (fun d => d.userId == u && d.linkId == l)).length = 1 := by
  refine ⟨submit_to_clean_store store u l vid ch idA cA rA hclean, ?_, ?_⟩
  · have hself : reuseMatch l u cB rB (uniq (cB ++ rB))
        ⟨idA, u, l, true, vid, ch, uniq cA, uniq rA, cA ++ rA, cA, rA⟩ = false := by
      show (l == l && true && !(u == u)
          && (listInter (uniq cA) cB || listInter (uniq rA) rB
              || listInter (cA ++ rA) (uniq (cB ++ rB))
              || listInter cA cB || listInter rA rB)) = false
      simp
    have hre : reuseByOtherUser
        (store ++ [(⟨idA, u, l, true, vid, ch, uniq cA, uniq rA, cA ++ rA, cA, rA⟩ : ScreenshotDoc)])
        l u cB rB (uniq (cB ++ rB)) = none := by
      unfold reuseByOtherUser
      rw [List.find?_append, reuse_find_none_of_clean hclean u cB rB (uniq (cB ++ rB))]
      simp [List.find?, hself]
    have hfind : (store ++
        [(⟨idA, u, l, true, vid, ch, uniq cA, uniq rA, cA ++ rA, cA, rA⟩ : ScreenshotDoc)]).find?
          (fun d => d.userId == u && d.linkId == l)
        = some ⟨idA, u, l, true, vid, ch, uniq cA, uniq rA, cA ++ rA, cA, rA⟩ := by
      rw [List.find?_append, userlink_find_none_of_clean hclean u]
      simp [List.find?]
    have hothers : (store ++
        [(⟨idA, u, l, true, vid, ch, uniq cA, uniq rA, cA ++ rA, cA, rA⟩ : ScreenshotDoc)]).filter
          (fun o => !(o.screenshotId == idA)) = store := by
      rw [List.filter_append]
      have hs : store.filter (fun o => !(o.screenshotId == idA)) = store := by
        apply List.filter_eq_self.mpr
        intro o ho
        simp only [Bool.not_eq_true', beq_eq_false_iff_ne, ne_eq]
        exact hfresh o ho
      rw [hs]
      simp
    have hdup : dupKeyFor store
        ⟨idA, u, l, true, vid2, ch2, uniq cB, uniq rB, cB ++ rB, cB, rB⟩ = none := by
      have g1 : store.any (fun o => o.userId == u && o.linkId == l) = false :=
        any_false_of_clean hclean _ (by
          intro o h
          simp only [Bool.and_eq_true, beq_iff_eq] at h
          exact h.2)
      have g2 : store.any (fun o =>
          o.verified && o.linkId == l && listInter o.commentIds (uniq cB)) = false :=
        any_false_of_clean hclean _ (by
          intro o h
          simp only [Bool.and_eq_true, beq_iff_eq] at h
          exact h.1.2)
      have g3 : store.any (fun o =>
          o.verified && o.linkId == l && listInter o.replyIds (uniq rB)) = false :=
        any_false_of_clean hclean _ (by
          intro o h
          simp only [Bool.and_eq_true, beq_iff_eq] at h
          exact h.1.2)
      simp only [dupKeyFor]
      simp [g1, g2, g3]
    have hmap : (store ++
        [(⟨idA, u, l, true, vid, ch, uniq cA, uniq rA, cA ++ rA, cA, rA⟩ : ScreenshotDoc)]).map
          (fun o => if o.screenshotId == idA then
            ⟨idA, u, l, true, vid2, ch2, uniq cB, uniq rB, cB ++ rB, cB, rB⟩ else o)
        = store ++ [(⟨idA, u, l, true, vid2, ch2, uniq cB, uniq rB, cB ++ rB, cB, rB⟩ : ScreenshotDoc)] := by
      rw [List.map_append]
      have hs : store.map (fun o => if o.screenshotId == idA then
          (⟨idA, u, l, true, vid2, ch2, uniq cB, uniq rB, cB ++ rB, cB, rB⟩ :
            ScreenshotDoc) else o) = store := by
        rw [List.map_congr_left (g := id), List.map_id]
        intro o ho
        have : (o.screenshotId == idA) = false := by
          simp only [beq_eq_false_iff_ne, ne_eq]
          exact hfresh o ho
        simp [this]
      rw [hs]
      simp
    simp only [submitVerified, hre, persistScreenshot, hfind, hothers, hdup, hmap]
  · rw [List.filter_append]
    have hnil : store.filter (fun d => d.userId == u && d.linkId == l) = [] := by
      apply List.filter_eq_nil_iff.mpr
      intro d hd
      simp only [Bool.and_eq_true, beq_iff_eq]
      rintro ⟨-, h2⟩
      exact hclean d hd h2
    rw [hnil]
    simp

/-- Witness for C3: the same user submits twice for campaign L with updated
links; one record remains. -/
theorem same_user_resubmit_updates_in_place_witness :
    submitVerified [] "U" "L" "V" "UC_U" "S1" ["c1", "c2"] ["r1", "r2"]
      = (.ok ⟨"S1", "U", "L", true, "V", "UC_U", uniq ["c1", "c2"], uniq ["r1", "r2"],
          ["c1", "c2"] ++ ["r1", "r2"], ["c1", "c2"], ["r1", "r2"]⟩,
         [] ++ [(⟨"S1", "U", "L", true, "V", "UC_U", uniq ["c1", "c2"], uniq ["r1", "r2"],
          ["c1", "c2"] ++ ["r1", "r2"], ["c1", "c2"], ["r1", "r2"]⟩ : ScreenshotDoc)])
  ∧ submitVerified
        ([] ++ [(⟨"S1", "U", "L", true, "V", "UC_U", uniq ["c1", "c2"], uniq ["r1", "r2"],
          ["c1", "c2"] ++ ["r1", "r2"], ["c1", "c2"], ["r1", "r2"]⟩ : ScreenshotDoc)])
        "U" "L" "V" "UC_U" "S2" ["c3", "c4"] ["r3", "r4"]
      = (.ok ⟨"S1", "U", "L", true, "V", "UC_U", uniq ["c3", "c4"], uniq ["r3", "r4"],
          ["c3", "c4"] ++ ["r3", "r4"], ["c3", "c4"], ["r3", "r4"]⟩,
         [] ++ [(⟨"S1", "U", "L", true, "V", "UC_U", uniq ["c3", "c4"], uniq ["r3", "r4"],
          ["c3", "c4"] ++ ["r3", "r4"], ["c3", "c4"], ["r3", "r4"]⟩ : ScreenshotDoc)])
  ∧ ((([] : List ScreenshotDoc) ++ [(⟨"S1", "U", "L", true, "V", "UC_U", uniq ["c3", "c4"], uniq ["r3", "r4"],
          ["c3", "c4"] ++ ["r3", "r4"], ["c3", "c4"], ["r3", "r4"]⟩ : ScreenshotDoc)]).filter
        (fun d => d.userId == "U" && d.linkId == "L")).length = 1 :=
  same_user_resubmit_updates_in_place [] "U" "L" "V" "UC_U" "S1" "V" "UC_U" "S2"
    ["c1", "c2"] ["r1", "r2"] ["c3", "c4"] ["r3", "r4"]
    (by intro d hd; cases hd) (by intro d hd; cases hd)
theorem verifyReply_self_reply_any_state
    (cv : String) (tm : String → Option ThreadInfo)
    (ff : String → Option String → Except Unit ReplyPage) (mp : Nat)
    (p : ParsedReply) (wt : Option String) (t : ThreadInfo) (a rid : String)
    (r : ReplyItem) (k : Nat)
    (h1 : tm p.parentId = some t) (h2 : t.videoId = some cv)
    (h3 : jsOrNull t.topAuthor = some a)
    (h4 : searchReplies (ff p.parentId) p.lc p.replyKey mp none = (.found rid r, k))
    (h5 : jsOrNull (r.snippet.bind (fun sn => sn.authorChannelId)) = some a) :
    ∀ up ui det, (verifyReply cv tm ff mp up ui det p wt).2.1 = none
      ∧ (verifyReply cv tm ff mp up ui det p wt).1 ≠ [] := by
  intro up ui det
  by_cases hup : p.parentId ∈ up
  · simp [verifyReply, hup]
  · by_cases hui : rid ∈ ui
    · simp [verifyReply, hup, h1, h2, h3, h4, h5, hui]
    · simp [verifyReply, hup, h1, h2, h3, h4, h5, hui]

theorem verifyReplies_reasons_ne_nil
    (cv : String) (tm : String → Option ThreadInfo)
    (ff : String → Option String → Except Unit ReplyPage) (mp : Nat)
    (p : ParsedReply) (wt : Option String) (t : ThreadInfo) (a rid : String)
    (r : ReplyItem) (k : Nat)
    (h1 : tm p.parentId = some t) (h2 : t.videoId = some cv)
    (h3 : jsOrNull t.topAuthor = some a)
    (h4 : searchReplies (ff p.parentId) p.lc p.replyKey mp none = (.found rid r, k))
    (h5 : jsOrNull (r.snippet.bind (fun sn => sn.authorChannelId)) = some a) :
    ∀ (pre post : List (ParsedReply × Option String)) (up ui : List String)
      (det : Option String),
      (verifyReplies cv tm ff mp up ui det (pre ++ (p, wt) :: post)).1 ≠ [] := by
  intro pre
  induction pre with
  | nil =>
    intro post up ui det
    have hstep := verifyReply_self_reply_any_state cv tm ff mp p wt t a rid r k
      h1 h2 h3 h4 h5 up ui det
    rcases hres : verifyReply cv tm ff mp up ui det p wt with ⟨rs, act, det2⟩
    rw [hres] at hstep
    rcases hstep with ⟨hact, hrs⟩
    simp only at hact
    subst hact
    simp only [List.nil_append, verifyReplies, hres, ne_eq, List.append_eq_nil]
    intro hcontra
    exact hrs hcontra.1
  | cons q pre ih =>
    intro post up ui det
    rcases q with ⟨q1, q2⟩
    rcases hq : verifyReply cv tm ff mp up ui det q1 q2 with ⟨rs, act, det2⟩
    cases act with
    | some aq =>
      simp only [List.cons_append, verifyReplies, hq, ne_eq, List.append_eq_nil]
      intro hcontra
      exact ih post (q1.parentId :: up) (aq.commentId :: ui) det2 hcontra.2
    | none =>
      simp only [List.cons_append, verifyReplies, hq, ne_eq, List.append_eq_nil]
      intro hcontra
      exact ih post up ui det2 hcontra.2

/-- C6: a reply whose author channel equals the author channel of its parent
top-level comment is rejected with REPLY_TO_OWN_COMMENT_NOT_ALLOWED (first
conjunct, at the fresh per-submission state), and any submission whose reply
list contains such a self-reply — wherever it occurs and whatever else the
submission carries — ends with verified = false, because the rejection
always contributes a nonempty reason and `verifiedYT` requires an empty
reason list. -/
theorem self_reply_rejected
    (cv : String) (tm : String → Option ThreadInfo)
    (ff : String → Option String → Except Unit ReplyPage) (mp : Nat)
    (p : ParsedReply) (wt : Option String) (t : ThreadInfo) (a rid : String)
    (r : ReplyItem) (k : Nat) (det : Option String)
    (h1 : tm p.parentId = some t) (h2 : t.videoId = some cv)
    (h3 : jsOrNull t.topAuthor = some a)
    (h4 : searchReplies (ff p.parentId) p.lc p.replyKey mp none = (.found rid r, k))
    (h5 : jsOrNull (r.snippet.bind (fun sn => sn.authorChannelId)) = some a) :
    verifyReply cv tm ff mp [] [] det p wt
      = (["REPLY_TO_OWN_COMMENT_NOT_ALLOWED:" ++ p.parentId], none, det)
  ∧ ∀ (pre post : List (ParsedReply × Option String)) (creasons : List String)
      (gc gr mc mr : Nat) (rl : Bool) (up ui : List String) (det2 : Option String),
      verifiedYT
        (creasons ++ (verifyReplies cv tm ff mp up ui det2 (pre ++ (p, wt) :: post)).1)
        gc gr mc mr rl = false := by
  constructor
  · simp [verifyReply, h1, h2, h3, h4, h5]
  · intro pre post creasons gc gr mc mr rl up ui det2
    have hne := verifyReplies_reasons_ne_nil cv tm ff mp p wt t a rid r k
      h1 h2 h3 h4 h5 pre post up ui det2
    have hap : creasons ++ (verifyReplies cv tm ff mp up ui det2
        (pre ++ (p, wt) :: post)).1 ≠ [] := by
      intro hc
      exact hne (List.append_eq_nil.mp hc).2
    have hemp : (creasons ++ (verifyReplies cv tm ff mp up ui det2
        (pre ++ (p, wt) :: post)).1).isEmpty = false := by
      rcases hl : creasons ++ (verifyReplies cv tm ff mp up ui det2
          (pre ++ (p, wt) :: post)).1 with - | ⟨x, xs⟩
      · exact absurd hl hap
      · rfl
    simp [verifiedYT, hemp]

/-- Witness for C6: parent comment by channel A on video V, reply P.x also
authored by A; the self-reply proof is rejected and the submission is
unverified. -/
theorem self_reply_rejected_witness :
    verifyReply "V" (fun pid => if pid = "P" then some ⟨some "V", some "A"⟩ else none)
        (fun _ _ => .ok ⟨[⟨some "P.x", some ⟨some "A", some "text"⟩⟩], none⟩) 5 [] [] none
        ⟨"perm", "V", "P.x", "P", some "x"⟩ none
      = (["REPLY_TO_OWN_COMMENT_NOT_ALLOWED:" ++ "P"], none, none)
  ∧ verifiedYT
      (([] : List String) ++ (verifyReplies "V"
        (fun pid => if pid = "P" then some ⟨some "V", some "A"⟩ else none)
        (fun _ _ => .ok ⟨[⟨some "P.x", some ⟨some "A", some "text"⟩⟩], none⟩) 5 [] [] none
        ([] ++ (⟨"perm", "V", "P.x", "P", some "x"⟩, none) :: [])).1)
      2 2 2 2 false = false := by
  have h := self_reply_rejected "V"
    (fun pid => if pid = "P" then some ⟨some "V", some "A"⟩ else none)
    (fun _ _ => .ok ⟨[⟨some "P.x", some ⟨some "A", some "text"⟩⟩], none⟩) 5
    ⟨"perm", "V", "P.x", "P", some "x"⟩ none ⟨some "V", some "A"⟩ "A" "P.x"
    ⟨some "P.x", some ⟨some "A", some "text"⟩⟩ 1 none
    (by simp) rfl rfl rfl rfl
  exact ⟨h.1, h.2 [] [] [] 2 2 2 2 false [] [] none⟩

theorem searchReplies_pages_le
    (fetch : Option String → Except Unit ReplyPage) (wf : String)
    (ws : Option String) (n : Nat) (tok : Option String) :
    (searchReplies fetch wf ws n tok).2 ≤ n := by
  induction n generalizing tok with
  | zero => simp [searchReplies]
  | succ m ih =>
    simp only [searchReplies]
    cases hf : fetch tok with
    | error e => simp [hf]
    | ok page =>
      simp only [hf]
      cases hw : findWanted wf ws page.items with
      | some pr => simp [hw]
      | none =>
        simp only [hw]
        cases ht : page.nextPageToken with
        | none => simp [ht]
        | some tk =>
          simp only [ht]
          exact Nat.succ_le_succ (ih (some tk))

/-- C7: the reply search examines at most `maxPages` pages of the authority
API reply listing — with the default `YT_MAX_PAGES = 5` (each request asking
for up to 100 replies) — so the loop always terminates; and whenever the
search exhausts its pages or the page-token chain ends without finding the
reply key, the reason recorded for that proof is REPLY_NOT_FOUND followed by
the parent id. -/
theorem reply_search_bounded_and_not_found :
    (∀ (fetch : Option String → Except Unit ReplyPage) (wf : String)
        (ws tok : Option String) (n : Nat),
        (searchReplies fetch wf ws n tok).2 ≤ n)
  ∧ YT_MAX_PAGES = 5
  ∧ (∀ (cv : String) (tm : String → Option ThreadInfo)
        (ff : String → Option String → Except Unit ReplyPage) (mp : Nat)
        (up ui : List String) (det : Option String) (p : ParsedReply)
        (wt : Option String) (t : ThreadInfo) (k : Nat),
        ¬ p.parentId ∈ up →
        tm p.parentId = some t → t.videoId = some cv →
        searchReplies (ff p.parentId) p.lc p.replyKey mp none = (.notFound, k) →
        (verifyReply cv tm ff mp up ui det p wt).1
          = ["REPLY_NOT_FOUND:" ++ p.parentId]) := by
  refine ⟨fun fetch wf ws tok n => searchReplies_pages_le fetch wf ws n tok, rfl, ?_⟩
  intro cv tm ff mp up ui det p wt t k hup h1 h2 hsearch
  simp [verifyReply, hup, h1, h2, hsearch]

/-- Witness for C7: a token-chained API with empty pages is cut off after 5
pages, and a not-found search records REPLY_NOT_FOUND for parent P. -/
theorem reply_search_bounded_and_not_found_witness :
    (searchReplies (fun _ => .ok ⟨[], some "tok"⟩) "P.x" (some "x") 5 none).2 ≤ 5
  ∧ (verifyReply "V" (fun pid => if pid = "P" then some ⟨some "V", some "A"⟩ else none)
        (fun _ _ => .ok ⟨[], none⟩) 5 [] [] none
        ⟨"perm", "V", "P.x", "P", some "x"⟩ none).1
      = ["REPLY_NOT_FOUND:" ++ "P"] :=
  ⟨reply_search_bounded_and_not_found.1 (fun _ => .ok ⟨[], some "tok"⟩) "P.x" (some "x") none 5,
   reply_search_bounded_and_not_found.2.2 "V"
     (fun pid => if pid = "P" then some ⟨some "V", some "A"⟩ else none)
     (fun _ _ => .ok ⟨[], none⟩) 5 [] [] none ⟨"perm", "V", "P.x", "P", some "x"⟩ none
     ⟨some "V", some "A"⟩ 1 (by simp) rfl rfl rfl⟩

theorem jsSetAux_sublist (l : List String) :
    ∀ seen, (jsSetAux seen l).Sublist l := by
  induction l with
  | nil => intro seen; simp [jsSetAux]
  | cons x xs ih =>
    intro seen
    rw [jsSetAux]
    by_cases hx : seen.contains x
    · simp only [hx, if_true]
      exact (ih seen).cons x
    · simp only [hx, if_false]
      exact (ih (x :: seen)).cons₂ x

theorem not_mem_seen_of_mem_jsSetAux {a : String} (l : List String) :
    ∀ seen, a ∈ jsSetAux seen l → ¬ a ∈ seen := by
  induction l with
  | nil => intro seen h; simp [jsSetAux] at h
  | cons x xs ih =>
    intro seen h
    rw [jsSetAux] at h
    by_cases hx : seen.contains x
    · simp only [hx, if_true] at h
      exact ih seen h
    · simp only [hx, if_false] at h
      rcases List.mem_cons.mp h with rfl | hmem
      · intro hc
        exact hx (by simpa using hc)
      · intro hc
        exact ih (x :: seen) hmem (List.mem_cons_of_mem x hc)

theorem jsSetAux_nodup (l : List String) : ∀ seen, (jsSetAux seen l).Nodup := by
  induction l with
  | nil => intro seen; simp [jsSetAux]
  | cons x xs ih =>
    intro seen
    rw [jsSetAux]
    by_cases hx : seen.contains x
    · simp only [hx, if_true]
      exact ih seen
    · simp only [hx, if_false]
      refine List.Nodup.cons ?_ (ih (x :: seen))
      intro hmem
      exact not_mem_seen_of_mem_jsSetAux xs (x :: seen) hmem (List.mem_cons_self x seen)

theorem jsSetAux_eq_self (l : List String) :
    ∀ seen, (∀ a ∈ l, ¬ a ∈ seen) → l.Nodup → jsSetAux seen l = l := by
  induction l with
  | nil => intro seen _ _; rfl
  | cons x xs ih =>
    intro seen hdisj hnd
    have hx : seen.contains x = false := by
      simpa using hdisj x (List.mem_cons_self x xs)
    rw [jsSetAux, hx]
    simp only [Bool.false_eq_true, if_false]
    congr 1
    apply ih (x :: seen)
    · intro a ha
      intro hc
      rcases List.mem_cons.mp hc with rfl | hc2
      · exact (List.nodup_cons.mp hnd).1 ha
      · exact hdisj a (List.mem_cons_of_mem x ha) hc2
    · exact (List.nodup_cons.mp hnd).2

theorem jsSetList_sublist (l : List String) : (jsSetList l).Sublist l :=
  jsSetAux_sublist l []

theorem mem_of_mem_jsSetList {a : String} {l : List String}
    (h : a ∈ jsSetList l) : a ∈ l :=
  (jsSetList_sublist l).subset h

theorem jsSetList_nodup (l : List String) : (jsSetList l).Nodup :=
  jsSetAux_nodup l []

theorem jsSetList_eq_self_of_nodup (l : List String) :
    l.Nodup → jsSetList l = l :=
  jsSetAux_eq_self l [] (by simp)

theorem nodup_of_jsSetList_length {l : List String}
    (h : (jsSetList l).length = l.length) : l.Nodup := by
  have he := (jsSetList_sublist l).eq_of_length h
  rw [← he]
  exact jsSetList_nodup l

theorem char_toNat_inj {a b : Char} (h : a.toNat = b.toNat) : a = b := by
  rw [← Char.ofNat_toNat a, ← Char.ofNat_toNat b, h]

theorem charListLe_total (x : List Char) :
    ∀ y, charListLe x y = true ∨ charListLe y x = true := by
  induction x with
  | nil => intro y; left; rfl
  | cons a as ih =>
    intro y
    cases y with
    | nil => right; rfl
    | cons b bs =>
      by_cases h1 : a.toNat < b.toNat
      · left
        simp [charListLe, h1]
      · by_cases h2 : b.toNat < a.toNat
        · right
          simp [charListLe, h2]
        · rcases ih bs with h | h
          · left
            simp [charListLe, h1, h2, h]
          · right
            simp [charListLe, h1, h2, h]

theorem charListLe_trans (x : List Char) :
    ∀ y z, charListLe x y = true → charListLe y z = true → charListLe x z = true := by
  induction x with
  | nil => intro y z _ _; rfl
  | cons a as ih =>
    intro y z hxy hyz
    cases y with
    | nil => simp [charListLe] at hxy
    | cons b bs =>
      cases z with
      | nil => simp [charListLe] at hyz
      | cons c cs =>
        by_cases hab : a.toNat < b.toNat
        · by_cases hbc : b.toNat < c.toNat
          · have hac : a.toNat < c.toNat := hab.trans hbc
            simp [charListLe, hac]
          · by_cases hcb : c.toNat < b.toNat
            · simp [charListLe, hbc, hcb] at hyz
            · have hac : a.toNat < c.toNat := by omega
              simp [charListLe, hac]
        · by_cases hba : b.toNat < a.toNat
          · simp [charListLe, hab, hba] at hxy
          · simp only [charListLe, if_neg hab, if_neg hba] at hxy
            by_cases hbc : b.toNat < c.toNat
            · have hac : a.toNat < c.toNat := by omega
              simp [charListLe, hac]
            · by_cases hcb : c.toNat < b.toNat
              · simp [charListLe, hbc, hcb] at hyz
              · simp only [charListLe, if_neg hbc, if_neg hcb] at hyz
                have hac1 : ¬ a.toNat < c.toNat := by omega
                have hac2 : ¬ c.toNat < a.toNat := by omega
                simp only [charListLe, if_neg hac1, if_neg hac2]
                exact ih bs cs hxy hyz

theorem charListLe_antisymm (x : List Char) :
    ∀ y, charListLe x y = true → charListLe y x = true → x = y := by
  induction x with
  | nil =>
    intro y _ hyx
    cases y with
    | nil => rfl
    | cons b bs => simp [charListLe] at hyx
  | cons a as ih =>
    intro y hxy hyx
    cases y with
    | nil => simp [charListLe] at hxy
    | cons b bs =>
      by_cases hab : a.toNat < b.toNat
      · have hba : ¬ b.toNat < a.toNat := by omega
        simp [charListLe, hab, hba] at hyx
      · by_cases hba : b.toNat < a.toNat
        · simp [charListLe, hab, hba] at hxy
        · have hqe : a.toNat = b.toNat := by omega
          have hq := char_toNat_inj hqe
          subst hq
          simp only [charListLe, if_neg hab, if_neg hba] at hxy hyx
          rw [ih bs hxy hyx]

instance strLeJS_isTotal : IsTotal String (fun a b => strLeJS a b = true) :=
  ⟨fun a b => charListLe_total a.data b.data⟩

instance strLeJS_isTrans : IsTrans String (fun a b => strLeJS a b = true) :=
  ⟨fun a b c => charListLe_trans a.data b.data c.data⟩

instance strLeJS_isAntisymm : IsAntisymm String (fun a b => strLeJS a b = true) :=
  ⟨fun a b h1 h2 => by
    have hd := charListLe_antisymm a.data b.data h1 h2
    cases a with
    | mk la =>
      cases b with
      | mk lb => exact congrArg String.mk hd⟩

theorem sortStrings_eq_of_perm {l₁ l₂ : List String} (h : l₁.Perm l₂) :
    sortStrings l₁ = sortStrings l₂ :=
  List.eq_of_perm_of_sorted
    ((List.perm_insertionSort _ l₁).trans (h.trans (List.perm_insertionSort _ l₂).symm))
    (List.sorted_insertionSort _ l₁) (List.sorted_insertionSort _ l₂)

theorem char_toLower_not_upper (c : Char) :
    ¬ (65 ≤ (Char.toLower c).toNat ∧ (Char.toLower c).toNat ≤ 90) := by
  by_cases hc : c.toNat ≥ 65 ∧ c.toNat ≤ 90
  · have hv : (c.toNat + 32).isValidChar := Or.inl (by omega)
    have he : (Char.ofNat (c.toNat + 32)).toNat = c.toNat + 32 := by
      simp [Char.ofNat, hv]
      rfl
    show ¬ (65 ≤ (if c.toNat ≥ 65 ∧ c.toNat ≤ 90 then Char.ofNat (c.toNat + 32)
        else c).toNat ∧ (if c.toNat ≥ 65 ∧ c.toNat ≤ 90 then Char.ofNat (c.toNat + 32)
        else c).toNat ≤ 90)
    rw [if_pos hc, he]
    omega
  · show ¬ (65 ≤ (if c.toNat ≥ 65 ∧ c.toNat ≤ 90 then Char.ofNat (c.toNat + 32)
        else c).toNat ∧ (if c.toNat ≥ 65 ∧ c.toNat ≤ 90 then Char.ofNat (c.toNat + 32)
        else c).toNat ≤ 90)
    rw [if_neg hc]
    exact hc

theorem normalizeHandle_no_upper (h0 : String) :
    ∀ c ∈ (normalizeHandle h0).data, ¬ (65 ≤ c.toNat ∧ c.toNat ≤ 90) := by
  intro c hc
  have hdata : (normalizeHandle h0).data
      = ((if jsStartsWithAt (jsTrim h0) then jsTrim h0
          else "@" ++ jsTrim h0)).data.map Char.toLower := rfl
  rw [hdata] at hc
  obtain ⟨c0, -, rfl⟩ := List.mem_map.mp hc
  exact char_toLower_not_upper c0

theorem normalizeHandle_starts (h0 : String) :
    jsStartsWithAt (normalizeHandle h0) = true := by
  by_cases hs : jsStartsWithAt (jsTrim h0) = true
  · have hdata : (normalizeHandle h0).data = (jsTrim h0).data.map Char.toLower := by
      simp only [normalizeHandle, hs, if_true]
      rfl
    cases ht : (jsTrim h0).data with
    | nil => simp [jsStartsWithAt, ht] at hs
    | cons c rest =>
      have hcat : c = '@' := by
        simp [jsStartsWithAt, ht] at hs
        exact hs
      subst hcat
      simp [jsStartsWithAt, hdata, ht]
  · have hdata : (normalizeHandle h0).data
        = ("@" ++ jsTrim h0).data.map Char.toLower := by
      simp only [normalizeHandle, hs, if_false]
      rfl
    have hcat : ("@" ++ jsTrim h0).data = '@' :: (jsTrim h0).data := by
      rw [String.data_append]
      rfl
    simp [jsStartsWithAt, hdata, hcat]

theorem preValidate_ok_parts (d d' : SDoc)
    (h : preValidateScreenshot d = .ok d') :
    d'.phashes = d.phashes
  ∧ d'.files = d.files
  ∧ d.phashes.length = 5
  ∧ (jsSetList d.phashes).length = 5
  ∧ d.files.length = 5
  ∧ (jsSetList (d.files.map (fun f => f.role))).length = ALLOWED_ROLES.length
  ∧ ALLOWED_ROLES.all
      (fun rr => (jsSetList (d.files.map (fun f => f.role))).contains rr) = true
  ∧ (jsSetList (d.files.map (fun f => f.sha256))).length = 5
  ∧ d'.bundleSig = String.intercalate "|" (sortStrings (jsSetList d.phashes))
  ∧ d'.bundleSha
      = String.intercalate "|" (sortStrings (jsSetList (d.files.map (fun f => f.sha256))))
  ∧ ((d.handle = none ∧ d'.handle = none)
      ∨ (d.handle = some "" ∧ d'.handle = some "")
      ∨ (∃ h0, d.handle = some h0 ∧ ¬ h0 = ""
          ∧ d'.handle = some (normalizeHandle h0))) := by
  simp only [preValidateScreenshot] at h
  split at h
  · exact absurd h (by simp)
  next hc1 =>
    split at h
    · exact absurd h (by simp)
    next hc2 =>
      split at h
      · exact absurd h (by simp)
      next hc3 =>
        split at h
        · exact absurd h (by simp)
        next hc4 =>
          split at h
          · exact absurd h (by simp)
          next hc5 =>
            rw [not_not] at hc1 hc2 hc3 hc5
            rw [not_not] at hc4
            rw [Except.ok.injEq] at h
            subst h
            cases hd : d.handle with
            | none =>
              refine ⟨by simp, by simp, hc1, hc2, hc3, hc4.1, hc4.2, hc5,
                by simp, by simp, ?_⟩
              left
              exact ⟨rfl, by simp⟩
            | some h0 =>
              by_cases h0e : h0 = ""
              · subst h0e
                refine ⟨by simp, by simp, hc1, hc2, hc3, hc4.1, hc4.2, hc5,
                  by simp, by simp, ?_⟩
                right
                left
                exact ⟨rfl, by simp⟩
              · refine ⟨by simp [h0e], by simp [h0e], hc1, hc2, hc3, hc4.1, hc4.2, hc5,
                  by simp [h0e], by simp [h0e], ?_⟩
                right
                right
                exact ⟨h0, rfl, h0e, by simp [h0e]⟩

theorem count_role_one (files : List SFile) (hlen : files.length = 5)
    (hset : (jsSetList (files.map (fun f => f.role))).length = ALLOWED_ROLES.length)
    (hcov : ALLOWED_ROLES.all
      (fun rr => (jsSetList (files.map (fun f => f.role))).contains rr) = true)
    (rr : String) (hr : rr ∈ ALLOWED_ROLES) :
    (files.filter (fun f => f.role == rr)).length = 1 := by
  have hmaplen : (files.map (fun f => f.role)).length = 5 := by simp [hlen]
  have hnd : (files.map (fun f => f.role)).Nodup := by
    apply nodup_of_jsSetList_length
    rw [hset, hmaplen]
    rfl
  have hcontains := List.all_eq_true.mp hcov rr hr
  have hmem : rr ∈ files.map (fun f => f.role) :=
    mem_of_mem_jsSetList (by simpa using hcontains)
  have hcount : (files.map (fun f => f.role)).count rr = 1 :=
    List.count_eq_one_of_mem hnd hmem
  calc (files.filter (fun f => f.role == rr)).length
      = files.countP (fun f => f.role == rr) := (List.countP_eq_length_filter _ _).symm
    _ = (files.map (fun f => f.role)).countP (fun x => x == rr) := by
        rw [List.countP_map]
        rfl
    _ = 1 := by rw [← List.count_eq_countP]; exact hcount

/-- C10: every Screenshot document accepted by the pre-validate hook has
exactly 5 files with exactly one file per role, 5 pairwise-distinct
perceptual hashes and 5 pairwise-distinct sha256 values; its
bundleSig/bundleSha equal the sorted bar-joins of those hash sets, so two
accepted documents whose phashes and files are permutations of one another
receive identical signatures; and a stored nonempty handle starts with the
at-sign and contains no ASCII uppercase letter. -/
theorem screenshot_validation_invariants (d d' : SDoc)
    (h : preValidateScreenshot d = .ok d') :
    d'.files.length = 5
  ∧ (∀ rr ∈ ALLOWED_ROLES, (d'.files.filter (fun f => f.role == rr)).length = 1)
  ∧ d'.phashes.length = 5
  ∧ d'.phashes.Nodup
  ∧ (d'.files.map (fun f => f.sha256)).Nodup
  ∧ d'.bundleSig = String.intercalate "|" (sortStrings d'.phashes)
  ∧ d'.bundleSha = String.intercalate "|" (sortStrings (d'.files.map (fun f => f.sha256)))
  ∧ (∀ d2 d2', preValidateScreenshot d2 = .ok d2' → d2.phashes.Perm d.phashes →
        d2.files.Perm d.files → d2'.bundleSig = d'.bundleSig ∧ d2'.bundleSha = d'.bundleSha)
  ∧ (∀ hh, d'.handle = some hh → ¬ hh = "" →
        jsStartsWithAt hh = true ∧ ∀ c ∈ hh.data, ¬ (65 ≤ c.toNat ∧ c.toNat ≤ 90)) := by
  obtain ⟨hp, hf, hl5, hjs5, hfl5, hrole, hcov, hsha5, hsig, hshaeq, hhandle⟩ :=
    preValidate_ok_parts d d' h
  have hpnodup : d.phashes.Nodup := nodup_of_jsSetList_length (by rw [hjs5, hl5])
  have hshnodup : (d.files.map (fun f => f.sha256)).Nodup := by
    apply nodup_of_jsSetList_length
    rw [hsha5]
    simp [hfl5]
  refine ⟨by rw [hf]; exact hfl5, ?_, by rw [hp]; exact hl5, by rw [hp]; exact hpnodup,
    by rw [hf]; exact hshnodup, ?_, ?_, ?_, ?_⟩
  · intro rr hr
    rw [hf]
    exact count_role_one d.files hfl5 hrole hcov rr hr
  · rw [hsig, hp, jsSetList_eq_self_of_nodup _ hpnodup]
  · rw [hshaeq, hf, jsSetList_eq_self_of_nodup _ hshnodup]
  · intro d2 d2' h2 hpperm hfperm
    obtain ⟨-, -, hl52, hjs52, hfl52, -, -, hsha52, hsig2, hshaeq2, -⟩ :=
      preValidate_ok_parts d2 d2' h2
    have hpnodup2 : d2.phashes.Nodup := nodup_of_jsSetList_length (by rw [hjs52, hl52])
    have hshnodup2 : (d2.files.map (fun f => f.sha256)).Nodup := by
      apply nodup_of_jsSetList_length
      rw [hsha52]
      simp [hfl52]
    constructor
    · rw [hsig2, hsig, jsSetList_eq_self_of_nodup _ hpnodup2,
        jsSetList_eq_self_of_nodup _ hpnodup, sortStrings_eq_of_perm hpperm]
    · rw [hshaeq2, hshaeq, jsSetList_eq_self_of_nodup _ hshnodup2,
        jsSetList_eq_self_of_nodup _ hshnodup,
        sortStrings_eq_of_perm (hfperm.map (fun f => f.sha256))]
  · intro hh hsome hne
    rcases hhandle with ⟨-, hnone⟩ | ⟨-, hemp⟩ | ⟨h0, -, h0ne, hnorm⟩
    · rw [hnone] at hsome
      cases hsome
    · rw [hemp] at hsome
      injection hsome with he
      exact absurd he.symm hne
    · rw [hnorm] at hsome
      injection hsome with he
      subst he
      exact ⟨normalizeHandle_starts h0, normalizeHandle_no_upper h0⟩

/-- Witness for C10 at a concrete 5-image document (handle Bob), together
with a second document carrying the same hashes in a different order that
receives the identical bundleSig. -/
theorem screenshot_validation_invariants_witness :
    ((⟨"u", "l", true, ["p1", "p2", "p3", "p4", "p5"], "p1|p2|p3|p4|p5",
        "s1|s2|s3|s4|s5", some "@bob", ["c"], ["r"],
        [⟨"like", "p1", "s1"⟩, ⟨"comment1", "p2", "s2"⟩, ⟨"comment2", "p3", "s3"⟩,
         ⟨"reply1", "p4", "s4"⟩, ⟨"reply2", "p5", "s5"⟩]⟩ : SDoc).files.filter
      (fun f => f.role == "comment1")).length = 1
  ∧ (⟨"u2", "l2", true, ["p5", "p4", "p3", "p2", "p1"], "p1|p2|p3|p4|p5",
        "s1|s2|s3|s4|s5", none, [], [],
        [⟨"reply2", "p5", "s5"⟩, ⟨"reply1", "p4", "s4"⟩, ⟨"comment2", "p3", "s3"⟩,
         ⟨"comment1", "p2", "s2"⟩, ⟨"like", "p1", "s1"⟩]⟩ : SDoc).bundleSig
      = (⟨"u", "l", true, ["p1", "p2", "p3", "p4", "p5"], "p1|p2|p3|p4|p5",
        "s1|s2|s3|s4|s5", some "@bob", ["c"], ["r"],
        [⟨"like", "p1", "s1"⟩, ⟨"comment1", "p2", "s2"⟩, ⟨"comment2", "p3", "s3"⟩,
         ⟨"reply1", "p4", "s4"⟩, ⟨"reply2", "p5", "s5"⟩]⟩ : SDoc).bundleSig
  ∧ jsStartsWithAt "@bob" = true := by
  have h := screenshot_validation_invariants
    ⟨"u", "l", true, ["p1", "p2", "p3", "p4", "p5"], "", "", some "Bob", ["c"], ["r"],
      [⟨"like", "p1", "s1"⟩, ⟨"comment1", "p2", "s2"⟩, ⟨"comment2", "p3", "s3"⟩,
       ⟨"reply1", "p4", "s4"⟩, ⟨"reply2", "p5", "s5"⟩]⟩
    ⟨"u", "l", true, ["p1", "p2", "p3", "p4", "p5"], "p1|p2|p3|p4|p5",
      "s1|s2|s3|s4|s5", some "@bob", ["c"], ["r"],
      [⟨"like", "p1", "s1"⟩, ⟨"comment1", "p2", "s2"⟩, ⟨"comment2", "p3", "s3"⟩,
       ⟨"reply1", "p4", "s4"⟩, ⟨"reply2", "p5", "s5"⟩]⟩
    rfl
  refine ⟨h.2.1 "comment1" (by decide), ?_, (h.2.2.2.2.2.2.2.2 "@bob" rfl (by decide)).1⟩
  exact (h.2.2.2.2.2.2.2.1
    ⟨"u2", "l2", true, ["p5", "p4", "p3", "p2", "p1"], "", "", none, [], [],
      [⟨"reply2", "p5", "s5"⟩, ⟨"reply1", "p4", "s4"⟩, ⟨"comment2", "p3", "s3"⟩,
       ⟨"comment1", "p2", "s2"⟩, ⟨"like", "p1", "s1"⟩]⟩
    ⟨"u2", "l2", true, ["p5", "p4", "p3", "p2", "p1"], "p1|p2|p3|p4|p5",
      "s1|s2|s3|s4|s5", none, [], [],
      [⟨"reply2", "p5", "s5"⟩, ⟨"reply1", "p4", "s4"⟩, ⟨"comment2", "p3", "s3"⟩,
       ⟨"comment1", "p2", "s2"⟩, ⟨"like", "p1", "s1"⟩]⟩
    rfl (by decide) (by decide)).1

end MHD1
